import Mathlib

/-!
Verification of the slab allocator (`src/lib.rs`).

The development shallowly embeds the Rust source: `u64` values are `Nat`
together with explicit `% 2 ^ 64` truncation where the source can overflow,
fallible operations return `Option`, and the backing `Allocator` is a
parameter `Backing` mapping a call counter ("time") and a requested
`(size, align)` layout to an optional memory block.  Each definition mirrors
one Rust item and keeps its name.
-/

/-! ## u64 / usize primitives -/

/-- Fuel-indexed population count: counts the set bits among the low `fuel`
bits of `x`.  With fuel 64 this is `u64::count_ones`. -/
def popCountAux : Nat → Nat → Nat
  | 0, _ => 0
  | fuel + 1, x => x % 2 + popCountAux fuel (x / 2)

/-- `u64::count_ones` on a value `< 2 ^ 64`. -/
def u64_count_ones (x : Nat) : Nat := popCountAux 64 x

/-- Fuel-indexed trailing-zero count of the low `fuel` bits. -/
def ctzAux : Nat → Nat → Nat
  | 0, _ => 0
  | fuel + 1, x => if x % 2 = 1 then 0 else ctzAux fuel (x / 2) + 1

/-- `u64::trailing_zeros` (also `usize::trailing_zeros` for the 64-bit
targets the crate assumes): 64 on input 0. -/
def u64_trailing_zeros (x : Nat) : Nat := ctzAux 64 x

/-- `u64::unbounded_shl`: plain shift for shift amounts below the bit
width, 0 once the whole value is shifted out. -/
def u64_unbounded_shl (x n : Nat) : Nat :=
  if n < 64 then (x <<< n) % 2 ^ 64 else 0

/-- `u64::wrapping_sub(1)`. -/
def u64_wrapping_sub_one (x : Nat) : Nat := (x + (2 ^ 64 - 1)) % 2 ^ 64

/-- `!y` on `u64` for `y < 2 ^ 64`: bitwise complement within 64 bits. -/
def u64_not (y : Nat) : Nat := (2 ^ 64 - 1) ^^^ (y % 2 ^ 64)

/-- `1u64 << i`.  The shift amount is reduced mod 64, matching the
release-mode semantics of a Rust shift (debug builds would panic on
`i ≥ 64`; every verified path keeps `i < 64`, where this is a plain shift). -/
def u64_one_shl (i : Nat) : Nat := 1 <<< (i % 64)

/-- Fuel-indexed ceiling base-2 logarithm: least `k` with `n ≤ 2 ^ k`,
for `n ≤ 2 ^ fuel`. -/
def clog2Aux : Nat → Nat → Nat
  | 0, _ => 0
  | fuel + 1, n => if n ≤ 1 then 0 else clog2Aux fuel ((n + 1) / 2) + 1

/-- `usize::next_power_of_two` (64-bit `usize`): the smallest power of two
greater than or equal to `n`, with `next_power_of_two 0 = 1`. -/
def next_power_of_two (n : Nat) : Nat := 2 ^ clog2Aux 64 n

/-! ## Memory blocks and the backing allocator -/

/-- A `NonNull<[u8]>`: a base address plus a length in bytes. -/
structure MemBlock where
  addr : Nat
  len : Nat
  deriving DecidableEq

/-- The backing `Allocator`, embedded as a deterministic oracle: argument 1
is a call counter (each `allocate` call consumes one tick), arguments 2 and 3
are the layout's size and alignment, and `none` models `AllocError`. -/
abbrev Backing := Nat → Nat → Nat → Option MemBlock

/-! ## `Slab` (the Page) -/

/-- `objects_per_page::<OBJECT_SIZE>()`. -/
def objects_per_page (S : Nat) : Nat := 0x1000 / S

/-- The `Slab<OBJECT_SIZE, A>` struct: the free bitmap plus the owned
memory block (`memory: NonNull<[u8]>`). -/
structure Slab (S : Nat) where
  bitmap : Nat
  memAddr : Nat
  memLen : Nat
  deriving DecidableEq

/-- The bitmap `Slab::new_in` installs:
`1u64.unbounded_shl(objects_per_page).wrapping_sub(1)`. -/
def initBitmap (S : Nat) : Nat :=
  u64_wrapping_sub_one (u64_unbounded_shl 1 (objects_per_page S))

/-- `Slab::new_in`: requests one page (`Layout 0x1000 / 0x1000`) from the
backing allocator and initializes the bitmap; `None` is `Err(AllocError)`.
The `assert!`s of the source (`64 ≤ S < 0x1000`, `S` a power of two) appear
as the `validObjectSize` hypothesis of the theorems below. -/
def Slab.new_in (S : Nat) (b : Backing) (t : Nat) : Option (Slab S) :=
  (b t 0x1000 0x1000).map fun blk => ⟨initBitmap S, blk.addr, blk.len⟩

/-- `Slab::memory_range().contains(&p)`: `start ≤ p < start + len`. -/
def Slab.containsAddr {S : Nat} (s : Slab S) (p : Nat) : Prop :=
  s.memAddr ≤ p ∧ p < s.memAddr + s.memLen

instance {S : Nat} (s : Slab S) (p : Nat) : Decidable (s.containsAddr p) :=
  inferInstanceAs (Decidable (_ ∧ _))

/-- `Slab::remaining_object_count`: `bitmap.count_ones()`. -/
def Slab.remaining_object_count {S : Nat} (s : Slab S) : Nat :=
  u64_count_ones s.bitmap

/-- `Slab::is_empty`. -/
def Slab.is_empty {S : Nat} (s : Slab S) : Prop :=
  s.remaining_object_count = 0

instance {S : Nat} (s : Slab S) : Decidable s.is_empty :=
  inferInstanceAs (Decidable (_ = _))

/-- `Slab::next_object`: on a non-empty slab, take the lowest set bit as the
object index, clear it, and hand out the byte range
`[index * S, index * S + S)` of the owned memory. -/
def Slab.next_object {S : Nat} (s : Slab S) : Option (MemBlock × Slab S) :=
  if s.remaining_object_count = 0 then none
  else
    let object_index := u64_trailing_zeros s.bitmap
    let byte_index_start := object_index * S
    some (⟨s.memAddr + byte_index_start, S⟩,
      ⟨s.bitmap &&& u64_not (u64_one_shl object_index), s.memAddr, s.memLen⟩)

/-- `Slab::return_object`: recover the object index from the pointer offset
(`byte_offset >> OBJECT_SIZE.trailing_zeros()`) and set its bitmap bit. -/
def Slab.return_object {S : Nat} (s : Slab S) (ptr : Nat) : Slab S :=
  let byte_offset := ptr - s.memAddr
  let object_index := byte_offset >>> u64_trailing_zeros S
  ⟨s.bitmap ||| u64_one_shl object_index, s.memAddr, s.memLen⟩

/-! ## `SlabManager` (the Size-Class Pool) -/

/-- The `SlabManager<OBJECT_SIZE, A>` struct. -/
structure SlabManager (S : Nat) where
  slabs : List (Slab S)
  remaining_object_count : Nat
  deriving DecidableEq

/-- `SlabManager::new_in`. -/
def SlabManager.new_in (S : Nat) : SlabManager S := ⟨[], 0⟩

/-- `SlabManager::is_empty`. -/
def SlabManager.is_empty {S : Nat} (m : SlabManager S) : Prop :=
  m.remaining_object_count = 0

instance {S : Nat} (m : SlabManager S) : Decidable m.is_empty :=
  inferInstanceAs (Decidable (_ = _))

/-- `self.slabs.iter_mut().find_map(Slab::next_object)`: walk the slabs in
creation order, issue from the first that yields an object (an empty slab is
left untouched by `Slab::next_object`), and return the updated list. -/
def findIssue {S : Nat} (l : List (Slab S)) : Option (MemBlock × List (Slab S)) :=
  l.rec none fun s rest ih =>
    match s.next_object with
    | some (object, s') => some (object, s' :: rest)
    | none =>
      match ih with
      | some (object, rest') => some (object, s :: rest')
      | none => none

/-- Outcome of `SlabManager::next_object`.  `ok` carries the issued block,
the updated manager, and the new backing-allocator time; `allocError` is the
propagated `Err(AllocError)`; `panicked` marks the two paths that are
unreachable under the manager's invariant (`unwrap` of a failed scan and
`unwrap_unchecked` on a fresh slab). -/
inductive IssueResult (S : Nat) where
  | ok (object : MemBlock) (mgr : SlabManager S) (time : Nat)
  | allocError (mgr : SlabManager S) (time : Nat)
  | panicked
  deriving DecidableEq

/-- `SlabManager::next_object`. -/
def SlabManager.next_object {S : Nat} (m : SlabManager S) (b : Backing)
    (t : Nat) : IssueResult S :=
  if m.remaining_object_count = 0 then
    match Slab.new_in S b t with
    | none => .allocError m (t + 1)
    | some new_slab =>
      match new_slab.next_object with
      | none => .panicked
      | some (object, new_slab') =>
        .ok object
          ⟨m.slabs ++ [new_slab'],
            m.remaining_object_count + new_slab'.remaining_object_count⟩
          (t + 1)
  else
    match findIssue m.slabs with
    | none => .panicked
    | some (object, slabs') =>
      .ok object ⟨slabs', m.remaining_object_count - 1⟩ t

/-- `self.slabs.iter_mut().find(|slab| slab.memory_range().contains(..))`
followed by `return_object` on the found slab; `none` models the
`unwrap_unchecked` on a pointer no owned slab contains (undefined
behaviour). -/
def findContaining {S : Nat} (l : List (Slab S)) (ptr : Nat) :
    Option (List (Slab S)) :=
  l.rec none fun s rest ih =>
    if s.containsAddr ptr then some (s.return_object ptr :: rest)
    else ih.map (s :: ·)

/-- `SlabManager::return_object`. -/
def SlabManager.return_object {S : Nat} (m : SlabManager S) (ptr : Nat) :
    Option (SlabManager S) :=
  (findContaining m.slabs ptr).map fun slabs' =>
    ⟨slabs', m.remaining_object_count + 1⟩

/-! ## `SlabAllocator` (the Router) -/

/-- The `SlabAllocator<A>` struct: one pool per supported class. -/
structure SlabAllocator where
  slab_64 : SlabManager 64
  slab_128 : SlabManager 128
  slab_256 : SlabManager 256
  slab_512 : SlabManager 512
  slab_1024 : SlabManager 1024
  slab_2048 : SlabManager 2048
  deriving DecidableEq

/-- `SlabAllocator::new_in`. -/
def SlabAllocator.new_in : SlabAllocator :=
  ⟨SlabManager.new_in 64, SlabManager.new_in 128, SlabManager.new_in 256,
    SlabManager.new_in 512, SlabManager.new_in 1024, SlabManager.new_in 2048⟩

/-- Outcome of `SlabAllocator::allocate`. -/
inductive RouterResult where
  | ok (object : MemBlock)
  | allocError
  | panicked
  deriving DecidableEq

/-- Result state of one `SlabAllocator::allocate` call. -/
structure AllocOut where
  result : RouterResult
  state : SlabAllocator
  time : Nat
  deriving DecidableEq

/-- `max(layout.size().next_power_of_two(), layout.align())`. -/
def allocation_size (size align : Nat) : Nat :=
  max (next_power_of_two size) align

/-- `<SlabAllocator as Allocator>::allocate`: dispatch on the computed
allocation size; anything outside the six classes goes straight to the
backing allocator with the original layout. -/
def SlabAllocator.allocate (r : SlabAllocator) (b : Backing) (t : Nat)
    (size align : Nat) : AllocOut :=
  let c := allocation_size size align
  if c = 64 then
    match r.slab_64.next_object b t with
    | .ok object m t' => ⟨.ok object, { r with slab_64 := m }, t'⟩
    | .allocError m t' => ⟨.allocError, { r with slab_64 := m }, t'⟩
    | .panicked => ⟨.panicked, r, t⟩
  else if c = 128 then
    match r.slab_128.next_object b t with
    | .ok object m t' => ⟨.ok object, { r with slab_128 := m }, t'⟩
    | .allocError m t' => ⟨.allocError, { r with slab_128 := m }, t'⟩
    | .panicked => ⟨.panicked, r, t⟩
  else if c = 256 then
    match r.slab_256.next_object b t with
    | .ok object m t' => ⟨.ok object, { r with slab_256 := m }, t'⟩
    | .allocError m t' => ⟨.allocError, { r with slab_256 := m }, t'⟩
    | .panicked => ⟨.panicked, r, t⟩
  else if c = 512 then
    match r.slab_512.next_object b t with
    | .ok object m t' => ⟨.ok object, { r with slab_512 := m }, t'⟩
    | .allocError m t' => ⟨.allocError, { r with slab_512 := m }, t'⟩
    | .panicked => ⟨.panicked, r, t⟩
  else if c = 1024 then
    match r.slab_1024.next_object b t with
    | .ok object m t' => ⟨.ok object, { r with slab_1024 := m }, t'⟩
    | .allocError m t' => ⟨.allocError, { r with slab_1024 := m }, t'⟩
    | .panicked => ⟨.panicked, r, t⟩
  else if c = 2048 then
    match r.slab_2048.next_object b t with
    | .ok object m t' => ⟨.ok object, { r with slab_2048 := m }, t'⟩
    | .allocError m t' => ⟨.allocError, { r with slab_2048 := m }, t'⟩
    | .panicked => ⟨.panicked, r, t⟩
  else
    match b t size align with
    | some blk => ⟨.ok blk, r, t + 1⟩
    | none => ⟨.allocError, r, t + 1⟩

/-- `<SlabAllocator as Allocator>::deallocate`: same classification, then a
pool-level `return_object` (`none` marks its undefined-behaviour path).  The
backing allocator's `deallocate` mutates no modelled state. -/
def SlabAllocator.deallocate (r : SlabAllocator) (ptr size align : Nat) :
    Option SlabAllocator :=
  let c := allocation_size size align
  if c = 64 then
    (r.slab_64.return_object ptr).map fun m => { r with slab_64 := m }
  else if c = 128 then
    (r.slab_128.return_object ptr).map fun m => { r with slab_128 := m }
  else if c = 256 then
    (r.slab_256.return_object ptr).map fun m => { r with slab_256 := m }
  else if c = 512 then
    (r.slab_512.return_object ptr).map fun m => { r with slab_512 := m }
  else if c = 1024 then
    (r.slab_1024.return_object ptr).map fun m => { r with slab_1024 := m }
  else if c = 2048 then
    (r.slab_2048.return_object ptr).map fun m => { r with slab_2048 := m }
  else
    some r

/-! ## Derived definitions used by the claims -/

/-- The slab `Slab::new_in` builds from a successful backing allocation. -/
def freshSlab (S : Nat) (blk : MemBlock) : Slab S :=
  ⟨initBitmap S, blk.addr, blk.len⟩

/-- The six classes the router's `match` recognises. -/
def supportedClass (c : Nat) : Prop :=
  c = 64 ∨ c = 128 ∨ c = 256 ∨ c = 512 ∨ c = 1024 ∨ c = 2048

/-- The caller contract of `SlabManager::return_object`: the pointer lies in
exactly the first owned slab whose range contains it, that slab's memory is
one page, and the object's slot is currently issued (bit clear). -/
def ReturnContract {S : Nat} (m : SlabManager S) (ptr : Nat) : Prop :=
  ∃ l1 s l2, m.slabs = l1 ++ s :: l2 ∧ (∀ u ∈ l1, ¬u.containsAddr ptr) ∧
    s.containsAddr ptr ∧ s.memLen ≤ 0x1000 ∧
    s.bitmap.testBit ((ptr - s.memAddr) >>> u64_trailing_zeros S) = false

/-- Bitmap bits at slot indices the page does not have are clear. -/
def Slab.highBitsClear {S : Nat} (s : Slab S) : Prop :=
  ∀ j, objects_per_page S ≤ j → s.bitmap.testBit j = false

/-- Iterated issuing: apply `Slab::next_object` `n` times, discarding the
issued ranges and keeping the slab state (a full slab is left unchanged). -/
def issueN {S : Nat} : Nat → Slab S → Slab S
  | 0, s => s
  | n + 1, s =>
    match s.next_object with
    | some (_, s') => issueN n s'
    | none => s

/-- The bitmap transition `Slab::next_object` performs. -/
def stepBitmap (b : Nat) : Nat :=
  if u64_count_ones b = 0 then b
  else b &&& u64_not (u64_one_shl (u64_trailing_zeros b))

/-- `stepBitmap` iterated `n` times. -/
def stepBitmapN : Nat → Nat → Nat
  | 0, b => b
  | n + 1, b => stepBitmapN n (stepBitmap b)

/-- A backing allocator that always succeeds, returning page-aligned,
exactly-sized blocks at fresh addresses (conforms to the `Allocator`
contract). -/
def b0 : Backing := fun t size _ => some ⟨(t + 1) * 0x1000, size⟩

/-- A backing allocator that is out of memory: every request fails. -/
def bNone : Backing := fun _ _ _ => none

/-! ## Validity predicates -/

/-- The `assert!`s of `Slab::new_in`: `64 ≤ S`, `S < 0x1000`, `S` a power of
two.  Exactly the six supported classes satisfy this. -/
def validObjectSize (S : Nat) : Prop :=
  64 ≤ S ∧ S < 0x1000 ∧ ∃ k, S = 2 ^ k

/-- Well-formedness of a slab's bitmap as a `u64` value. -/
def Slab.wf {S : Nat} (s : Slab S) : Prop := s.bitmap < 2 ^ 64

/-- Sum of per-slab free counts over a pool's slab list. -/
def sumFree {S : Nat} (l : List (Slab S)) : Nat :=
  (l.map fun s => s.remaining_object_count).sum

/-- The cached-count invariant of a pool (claim C3's invariant). -/
def SlabManager.inv {S : Nat} (m : SlabManager S) : Prop :=
  m.remaining_object_count = sumFree m.slabs

instance {S : Nat} (m : SlabManager S) : Decidable m.inv :=
  inferInstanceAs (Decidable (_ = _))

/-- All bitmaps of a pool are genuine `u64` values. -/
def SlabManager.wf {S : Nat} (m : SlabManager S) : Prop :=
  ∀ s ∈ m.slabs, s.wf

/-! ## Bit-level lemmas -/

theorem popCountAux_zero (fuel : Nat) : popCountAux fuel 0 = 0 := by
  induction fuel with
  | zero => rfl
  | succ f ih => simpa [popCountAux] using ih

theorem popCountAux_eq_sum (fuel x : Nat) :
    popCountAux fuel x =
      ∑ j ∈ Finset.range fuel, (if x.testBit j then 1 else 0) := by
  induction fuel generalizing x with
  | zero => rfl
  | succ f ih =>
    rw [popCountAux, ih (x / 2), Finset.sum_range_succ', Nat.add_comm]
    congr 1
    · refine Finset.sum_congr rfl fun j _ => ?_
      have hb : x.testBit (j + 1) = (x / 2).testBit j := Nat.testBit_succ x j
      rw [hb]
    · rw [Nat.testBit_zero]
      rcases Nat.mod_two_eq_zero_or_one x with h | h <;> simp [h]

theorem popCountAux_eq_zero_iff (fuel x : Nat) (hx : x < 2 ^ fuel) :
    popCountAux fuel x = 0 ↔ x = 0 := by
  induction fuel generalizing x with
  | zero =>
    rw [pow_zero] at hx
    simp only [popCountAux]
    exact ⟨fun _ => by omega, fun _ => by trivial⟩
  | succ f ih =>
    have h2 : x / 2 < 2 ^ f := by rw [pow_succ] at hx; omega
    rw [popCountAux]
    constructor
    · intro h
      have h0 : popCountAux f (x / 2) = 0 := by omega
      have := (ih _ h2).mp h0
      omega
    · intro h
      subst h
      simp [popCountAux_zero]

theorem popCountAux_le (fuel : Nat) : ∀ n x, x < 2 ^ n → popCountAux fuel x ≤ n := by
  induction fuel with
  | zero => intro n x _; exact Nat.zero_le n
  | succ f ih =>
    intro n x hx
    match n with
    | 0 =>
      rw [pow_zero] at hx
      have hx0 : x = 0 := by omega
      subst hx0
      simp [popCountAux, popCountAux_zero]
    | n + 1 =>
      have h2 : x / 2 < 2 ^ n := by rw [pow_succ] at hx; omega
      have := ih n (x / 2) h2
      rw [popCountAux]
      omega

theorem ctzAux_spec (fuel : Nat) : ∀ x, x ≠ 0 → x < 2 ^ fuel →
    x.testBit (ctzAux fuel x) = true ∧
      ∀ j, j < ctzAux fuel x → x.testBit j = false := by
  induction fuel with
  | zero => intro x hx0 hx; rw [pow_zero] at hx; omega
  | succ f ih =>
    intro x hx0 hx
    simp only [ctzAux]
    by_cases h : x % 2 = 1
    · rw [if_pos h]
      refine ⟨by rw [Nat.testBit_zero]; simp [h], ?_⟩
      intro j hj
      omega
    · rw [if_neg h]
      have hx2 : x / 2 ≠ 0 := by omega
      have h2 : x / 2 < 2 ^ f := by rw [pow_succ] at hx; omega
      obtain ⟨h1, hlow⟩ := ih (x / 2) hx2 h2
      refine ⟨?_, ?_⟩
      · have hb : x.testBit (ctzAux f (x / 2) + 1) = (x / 2).testBit (ctzAux f (x / 2)) :=
          Nat.testBit_succ x (ctzAux f (x / 2))
        rw [hb]
        exact h1
      · intro j hj
        match j with
        | 0 => rw [Nat.testBit_zero]; simp [h]
        | j + 1 =>
          have hb : x.testBit (j + 1) = (x / 2).testBit j := Nat.testBit_succ x j
          rw [hb]
          exact hlow j (by omega)

theorem lt_two_pow_of_high_bits_clear {x n : Nat}
    (h : ∀ i, n ≤ i → x.testBit i = false) : x < 2 ^ n := by
  have h0 : x >>> n = 0 := by
    apply Nat.eq_of_testBit_eq
    intro i
    rw [Nat.testBit_shiftRight, Nat.zero_testBit]
    exact h (n + i) (Nat.le_add_right n i)
  rw [Nat.shiftRight_eq_div_pow] at h0
  have hp : 0 < 2 ^ n := Nat.pos_pow_of_pos n (by omega)
  exact (Nat.div_eq_zero_iff hp).mp h0

theorem u64_trailing_zeros_lt (x : Nat) (hx0 : x ≠ 0) (hx : x < 2 ^ 64) :
    u64_trailing_zeros x < 64 := by
  by_contra hge
  have hbit := (ctzAux_spec 64 x hx0 hx).1
  have h64 : 64 ≤ u64_trailing_zeros x := Nat.le_of_not_lt hge
  have hfalse : x.testBit (u64_trailing_zeros x) = false :=
    Nat.testBit_eq_false_of_lt
      (lt_of_lt_of_le hx (Nat.pow_le_pow_right (by omega) h64))
  unfold u64_trailing_zeros at hfalse
  rw [hfalse] at hbit
  cases hbit

theorem u64_trailing_zeros_two_pow (k : Nat) (hk : k < 64) :
    u64_trailing_zeros (2 ^ k) = k := by
  have h1 : (2 : Nat) ^ k ≠ 0 := Nat.pos_iff_ne_zero.mp (Nat.pos_pow_of_pos k (by omega))
  have h2 : (2 : Nat) ^ k < 2 ^ 64 := Nat.pow_lt_pow_right (by omega) hk
  have hbit := (ctzAux_spec 64 (2 ^ k) h1 h2).1
  rw [Nat.testBit_two_pow] at hbit
  exact (of_decide_eq_true hbit).symm

theorem u64_one_shl_eq (i : Nat) (hi : i < 64) : u64_one_shl i = 2 ^ i := by
  rw [u64_one_shl, Nat.mod_eq_of_lt hi, Nat.one_shiftLeft]

theorem testBit_and_not_shl (b i j : Nat) (hi : i < 64) (hb : b < 2 ^ 64) :
    (b &&& u64_not (u64_one_shl i)).testBit j =
      (b.testBit j && !(decide (j = i) : Bool)) := by
  have hmod : (2 : Nat) ^ i % 2 ^ 64 = 2 ^ i :=
    Nat.mod_eq_of_lt (Nat.pow_lt_pow_right (by omega) hi)
  rw [u64_one_shl_eq i hi, u64_not, hmod, Nat.testBit_land, Nat.testBit_xor,
    Nat.testBit_two_pow_sub_one, Nat.testBit_two_pow]
  by_cases hj : j < 64
  · by_cases hij : j = i
    · subst hij
      simp [hj]
    · have hij' : ¬i = j := fun h => hij h.symm
      simp [hj, hij, hij']
  · have hbj : b.testBit j = false :=
      Nat.testBit_eq_false_of_lt
        (lt_of_lt_of_le hb (Nat.pow_le_pow_right (by omega) (by omega)))
    simp [hbj]

theorem testBit_or_shl (b i j : Nat) (hi : i < 64) :
    (b ||| u64_one_shl i).testBit j = (b.testBit j || decide (j = i)) := by
  rw [u64_one_shl_eq i hi, Nat.testBit_lor, Nat.testBit_two_pow]
  by_cases hij : i = j <;> simp [hij, eq_comm]

theorem u64_count_ones_clear (b i : Nat) (hb : b < 2 ^ 64) (hi : i < 64)
    (hbit : b.testBit i = true) :
    u64_count_ones (b &&& u64_not (u64_one_shl i)) + 1 = u64_count_ones b := by
  rw [u64_count_ones, u64_count_ones, popCountAux_eq_sum, popCountAux_eq_sum]
  have hmem : i ∈ Finset.range 64 := Finset.mem_range.mpr hi
  have e1 : (∑ j ∈ Finset.range 64,
        (if (b &&& u64_not (u64_one_shl i)).testBit j then 1 else 0)) =
      ∑ j ∈ (Finset.range 64).erase i, (if b.testBit j then 1 else 0) := by
    rw [← Finset.sum_erase_add _ _ hmem]
    have hterm : (if (b &&& u64_not (u64_one_shl i)).testBit i then 1 else 0) = 0 := by
      rw [testBit_and_not_shl b i i hi hb]
      simp
    rw [hterm, Nat.add_zero]
    refine Finset.sum_congr rfl fun j hj => ?_
    have hji : j ≠ i := (Finset.mem_erase.mp hj).1
    rw [testBit_and_not_shl b i j hi hb]
    simp [hji]
  have e2 : (∑ j ∈ Finset.range 64, (if b.testBit j then 1 else 0)) =
      (∑ j ∈ (Finset.range 64).erase i, (if b.testBit j then 1 else 0)) + 1 := by
    rw [← Finset.sum_erase_add _ _ hmem, hbit]
    simp
  omega

theorem u64_count_ones_set (b i : Nat) (hi : i < 64)
    (hbit : b.testBit i = false) :
    u64_count_ones (b ||| u64_one_shl i) = u64_count_ones b + 1 := by
  rw [u64_count_ones, u64_count_ones, popCountAux_eq_sum, popCountAux_eq_sum]
  have hmem : i ∈ Finset.range 64 := Finset.mem_range.mpr hi
  have e1 : (∑ j ∈ Finset.range 64,
        (if (b ||| u64_one_shl i).testBit j then 1 else 0)) =
      (∑ j ∈ (Finset.range 64).erase i, (if b.testBit j then 1 else 0)) + 1 := by
    rw [← Finset.sum_erase_add _ _ hmem]
    have hterm : (if (b ||| u64_one_shl i).testBit i then 1 else 0) = 1 := by
      rw [testBit_or_shl b i i hi]
      simp
    rw [hterm]
    congr 1
    refine Finset.sum_congr rfl fun j hj => ?_
    have hji : j ≠ i := (Finset.mem_erase.mp hj).1
    rw [testBit_or_shl b i j hi]
    simp [hji]
  have e2 : (∑ j ∈ Finset.range 64, (if b.testBit j then 1 else 0)) =
      ∑ j ∈ (Finset.range 64).erase i, (if b.testBit j then 1 else 0) := by
    rw [← Finset.sum_erase_add _ _ hmem, hbit]
    simp
  omega

theorem or_shl_lt (b i : Nat) (hb : b < 2 ^ 64) (hi : i < 64) :
    b ||| u64_one_shl i < 2 ^ 64 := by
  apply lt_two_pow_of_high_bits_clear
  intro j hj
  rw [testBit_or_shl b i j hi]
  have h1 : b.testBit j = false :=
    Nat.testBit_eq_false_of_lt
      (lt_of_lt_of_le hb (Nat.pow_le_pow_right (by omega) hj))
  have h2 : j ≠ i := by omega
  simp [h1, h2]

theorem le_two_pow_clog2Aux (fuel : Nat) : ∀ n, n ≤ 2 ^ fuel →
    n ≤ 2 ^ clog2Aux fuel n := by
  induction fuel with
  | zero => intro n h; simpa [clog2Aux] using h
  | succ f ih =>
    intro n h
    simp only [clog2Aux]
    by_cases h1 : n ≤ 1
    · rw [if_pos h1]
      simpa using h1
    · rw [if_neg h1]
      have hrec : (n + 1) / 2 ≤ 2 ^ f := by rw [pow_succ] at h; omega
      have := ih ((n + 1) / 2) hrec
      rw [pow_succ]
      omega

theorem le_next_power_of_two (n : Nat) (h : n ≤ 2 ^ 64) :
    n ≤ next_power_of_two n := le_two_pow_clog2Aux 64 n h

theorem next_power_of_two_def (n : Nat) :
    next_power_of_two n = 2 ^ clog2Aux 64 n := rfl

/- As with `Slab.next_object` below, `next_power_of_two` is opaque to
definitional unfolding from here on; symbolic reduction of its fuel
recursion is prohibitively expensive. -/
attribute [irreducible] next_power_of_two

/-! ## Object-size and fresh-bitmap lemmas -/

theorem validObjectSize_exp {S : Nat} (h : validObjectSize S) :
    ∃ k, S = 2 ^ k ∧ 6 ≤ k ∧ k ≤ 11 := by
  obtain ⟨h1, h2, k, hk⟩ := h
  subst hk
  refine ⟨k, rfl, ?_, ?_⟩
  · by_contra h6
    have hk5 : k ≤ 5 := by omega
    have hle : (2 : Nat) ^ k ≤ 2 ^ 5 := Nat.pow_le_pow_right (by omega) hk5
    have h32 : (2 : Nat) ^ 5 = 32 := by norm_num
    omega
  · by_contra h11
    have hk12 : 12 ≤ k := by omega
    have hle : (2 : Nat) ^ 12 ≤ 2 ^ k := Nat.pow_le_pow_right (by omega) hk12
    have h4096 : (2 : Nat) ^ 12 = 4096 := by norm_num
    omega

theorem initBitmap_spec {S : Nat} (h : validObjectSize S) :
    initBitmap S = 2 ^ objects_per_page S - 1 ∧
      2 ≤ objects_per_page S ∧ objects_per_page S ≤ 64 := by
  obtain ⟨k, hSk, h6, h11⟩ := validObjectSize_exp h
  subst hSk
  interval_cases k <;> exact ⟨by decide, by decide, by decide⟩

theorem initBitmap_count {S : Nat} (h : validObjectSize S) :
    u64_count_ones (initBitmap S) = objects_per_page S := by
  obtain ⟨k, hSk, h6, h11⟩ := validObjectSize_exp h
  subst hSk
  interval_cases k <;> decide

theorem initBitmap_lt (S : Nat) : initBitmap S < 2 ^ 64 := by
  unfold initBitmap u64_wrapping_sub_one
  exact Nat.mod_lt _ (by norm_num)

theorem initBitmap_high_clear {S : Nat} (h : validObjectSize S) :
    ∀ j, objects_per_page S ≤ j → (initBitmap S).testBit j = false := by
  obtain ⟨heq, h2, h64⟩ := initBitmap_spec h
  intro j hj
  rw [heq, Nat.testBit_two_pow_sub_one]
  exact decide_eq_false (by omega)

theorem initBitmap_low_set {S : Nat} (h : validObjectSize S) :
    ∀ j, j < objects_per_page S → (initBitmap S).testBit j = true := by
  obtain ⟨heq, h2, h64⟩ := initBitmap_spec h
  intro j hj
  rw [heq, Nat.testBit_two_pow_sub_one]
  simpa using hj

/-! ## Slab operation lemmas -/

theorem Slab.next_object_none_iff {S : Nat} (s : Slab S) :
    s.next_object = none ↔ s.remaining_object_count = 0 := by
  unfold Slab.next_object
  by_cases h : s.remaining_object_count = 0 <;> simp [h]

theorem Slab.next_object_some_spec {S : Nat} (s : Slab S) (o : MemBlock)
    (s' : Slab S) (h : s.next_object = some (o, s')) :
    s.remaining_object_count ≠ 0 ∧
      o = ⟨s.memAddr + u64_trailing_zeros s.bitmap * S, S⟩ ∧
      s' = ⟨s.bitmap &&& u64_not (u64_one_shl (u64_trailing_zeros s.bitmap)),
        s.memAddr, s.memLen⟩ := by
  simp only [Slab.next_object] at h
  by_cases h0 : s.remaining_object_count = 0
  · rw [if_pos h0] at h
    cases h
  · rw [if_neg h0] at h
    simp only [Option.some_inj, Prod.mk.injEq] at h
    exact ⟨h0, h.1.symm, h.2.symm⟩

theorem Slab.next_object_eq_of {S : Nat} (s : Slab S)
    (h0 : s.remaining_object_count ≠ 0) :
    s.next_object = some (⟨s.memAddr + u64_trailing_zeros s.bitmap * S, S⟩,
      ⟨s.bitmap &&& u64_not (u64_one_shl (u64_trailing_zeros s.bitmap)),
        s.memAddr, s.memLen⟩) := by
  unfold Slab.next_object
  rw [if_neg h0]

theorem Slab.bitmap_ne_zero {S : Nat} (s : Slab S)
    (h0 : s.remaining_object_count ≠ 0) : s.bitmap ≠ 0 := by
  intro hb
  apply h0
  unfold Slab.remaining_object_count u64_count_ones
  rw [hb, popCountAux_zero]

theorem Slab.next_object_step {S : Nat} (s : Slab S) (o : MemBlock) (s' : Slab S)
    (hw : s.wf) (h : s.next_object = some (o, s')) :
    s'.remaining_object_count + 1 = s.remaining_object_count ∧ s'.wf ∧
      s'.memAddr = s.memAddr ∧ s'.memLen = s.memLen ∧ o.len = S := by
  obtain ⟨h0, ho, hs'⟩ := Slab.next_object_some_spec s o s' h
  have hb0 : s.bitmap ≠ 0 := Slab.bitmap_ne_zero s h0
  have hi : u64_trailing_zeros s.bitmap < 64 := u64_trailing_zeros_lt _ hb0 hw
  have hbit : s.bitmap.testBit (u64_trailing_zeros s.bitmap) = true :=
    (ctzAux_spec 64 s.bitmap hb0 hw).1
  subst hs'
  subst ho
  refine ⟨?_, ?_, rfl, rfl, rfl⟩
  · exact u64_count_ones_clear s.bitmap _ hw hi hbit
  · exact lt_of_le_of_lt Nat.and_le_left hw

theorem return_index_lt {S : Nat} (h : validObjectSize S) (off : Nat)
    (hoff : off < 4096) :
    off >>> u64_trailing_zeros S < objects_per_page S ∧
      objects_per_page S ≤ 64 := by
  obtain ⟨k, hSk, h6, h11⟩ := validObjectSize_exp h
  subst hSk
  rw [u64_trailing_zeros_two_pow k (by omega), Nat.shiftRight_eq_div_pow]
  unfold objects_per_page
  constructor
  · apply Nat.div_lt_div_of_lt_of_dvd
    · refine ⟨2 ^ (12 - k), ?_⟩
      rw [← pow_add]
      have hk12 : k + (12 - k) = 12 := by omega
      rw [hk12]
      norm_num
    · exact hoff
  · have h64 : (64 : Nat) ≤ 2 ^ k := by
      have hle : (2 : Nat) ^ 6 ≤ 2 ^ k := Nat.pow_le_pow_right (by omega) h6
      have h6v : (2 : Nat) ^ 6 = 64 := by norm_num
      omega
    calc 0x1000 / 2 ^ k ≤ 0x1000 / 64 := Nat.div_le_div_left h64 (by norm_num)
    _ = 64 := by norm_num

/-! ## Pool list lemmas -/

theorem sumFree_append {S : Nat} (l1 l2 : List (Slab S)) :
    sumFree (l1 ++ l2) = sumFree l1 + sumFree l2 := by
  unfold sumFree
  rw [List.map_append, List.sum_append]

theorem sumFree_cons {S : Nat} (s : Slab S) (l : List (Slab S)) :
    sumFree (s :: l) = s.remaining_object_count + sumFree l := by
  unfold sumFree
  rw [List.map_cons, List.sum_cons]

theorem mem_le_sumFree {S : Nat} (l : List (Slab S)) (s : Slab S) (hs : s ∈ l) :
    s.remaining_object_count ≤ sumFree l := by
  induction l with
  | nil => cases hs
  | cons u rest ih =>
    rw [sumFree_cons]
    rcases List.mem_cons.mp hs with h | h
    · subst h; omega
    · have := ih h; omega

/- `Slab.next_object` is kept opaque to definitional unfolding from here on:
its behaviour is fully captured by the lemmas above, and symbolic reduction
of its emptiness test is prohibitively expensive. -/
attribute [irreducible] Slab.next_object

theorem findIssue_nil {S : Nat} : findIssue ([] : List (Slab S)) = none := rfl

theorem findIssue_cons {S : Nat} (s : Slab S) (rest : List (Slab S)) :
    findIssue (s :: rest) =
      match s.next_object with
      | some (object, s') => some (object, s' :: rest)
      | none =>
        match findIssue rest with
        | some (object, rest') => some (object, s :: rest')
        | none => none := rfl

theorem findContaining_nil {S : Nat} (ptr : Nat) :
    findContaining ([] : List (Slab S)) ptr = none := rfl

theorem findContaining_cons {S : Nat} (s : Slab S) (rest : List (Slab S))
    (ptr : Nat) :
    findContaining (s :: rest) ptr =
      if s.containsAddr ptr then some (s.return_object ptr :: rest)
      else (findContaining rest ptr).map (s :: ·) := rfl

theorem findIssue_none_iff {S : Nat} (l : List (Slab S)) :
    findIssue l = none ↔ ∀ s ∈ l, s.remaining_object_count = 0 := by
  induction l with
  | nil => simp [findIssue_nil]
  | cons s rest ih =>
    rw [findIssue_cons]
    cases hs : s.next_object with
    | some pr =>
      obtain ⟨o, s2⟩ := pr
      constructor
      · intro hcontra
        cases hcontra
      · intro hall
        have h0 : s.remaining_object_count = 0 := hall s (by simp)
        have hnone : s.next_object = none := (Slab.next_object_none_iff s).mpr h0
        rw [hnone] at hs
        cases hs
    | none =>
      have h0 : s.remaining_object_count = 0 := (Slab.next_object_none_iff s).mp hs
      cases hr : findIssue rest with
      | some pr =>
        obtain ⟨o, rest'⟩ := pr
        constructor
        · intro hcontra
          cases hcontra
        · intro hall
          have hrn : findIssue rest = none :=
            ih.mpr fun u hu => hall u (by simp [hu])
          rw [hrn] at hr
          cases hr
      | none =>
        constructor
        · intro _ u hu
          rcases List.mem_cons.mp hu with hcase | hcase
          · subst hcase; exact h0
          · exact (ih.mp hr) u hcase
        · intro _
          rfl

theorem findIssue_some_spec {S : Nat} (l : List (Slab S)) (o : MemBlock)
    (l' : List (Slab S)) (h : findIssue l = some (o, l')) :
    ∃ l1 s s' l2, l = l1 ++ s :: l2 ∧ l' = l1 ++ s' :: l2 ∧
      (∀ u ∈ l1, u.remaining_object_count = 0) ∧
      s.next_object = some (o, s') := by
  induction l generalizing o l' with
  | nil => rw [findIssue_nil] at h; cases h
  | cons s rest ih =>
    rw [findIssue_cons] at h
    cases hs : s.next_object with
    | some pr =>
      obtain ⟨o2, s2⟩ := pr
      rw [hs] at h
      simp only [Option.some_inj, Prod.mk.injEq] at h
      obtain ⟨ho, hl⟩ := h
      refine ⟨[], s, s2, rest, by simp, by simp [← hl], by simp, ?_⟩
      rw [← ho]
      exact hs
    | none =>
      rw [hs] at h
      cases hr : findIssue rest with
      | none =>
        rw [hr] at h
        cases h
      | some pr =>
        obtain ⟨o2, rest'⟩ := pr
        rw [hr] at h
        simp only [Option.some_inj, Prod.mk.injEq] at h
        obtain ⟨ho, hl⟩ := h
        obtain ⟨l1, sm, sm', l2, he1, he2, hemp, hnext⟩ := ih o2 rest' hr
        refine ⟨s :: l1, sm, sm', l2, by simp [he1], by simp [← hl, he2], ?_, ?_⟩
        · intro u hu
          rcases List.mem_cons.mp hu with hcase | hcase
          · rw [hcase]
            exact (Slab.next_object_none_iff s).mp hs
          · exact hemp u hcase
        · rw [← ho]
          exact hnext

theorem findContaining_first {S : Nat} (l1 : List (Slab S)) (s : Slab S)
    (l2 : List (Slab S)) (ptr : Nat)
    (hno : ∀ u ∈ l1, ¬u.containsAddr ptr) (hc : s.containsAddr ptr) :
    findContaining (l1 ++ s :: l2) ptr =
      some (l1 ++ s.return_object ptr :: l2) := by
  induction l1 with
  | nil =>
    rw [List.nil_append, findContaining_cons, if_pos hc, List.nil_append]
  | cons u rest ih =>
    have hu : ¬u.containsAddr ptr := hno u (by simp)
    have hrec := ih fun v hv => hno v (by simp [hv])
    rw [List.cons_append, findContaining_cons, if_neg hu, hrec]
    rfl

/-! ## Pool-level lemmas -/

theorem Slab.new_in_eq_some {S : Nat} (b : Backing) (t : Nat) (blk : MemBlock)
    (hb : b t 0x1000 0x1000 = some blk) :
    Slab.new_in S b t = some (freshSlab S blk) := by
  unfold Slab.new_in
  rw [hb]
  rfl

theorem Slab.new_in_eq_none {S : Nat} (b : Backing) (t : Nat)
    (hb : b t 0x1000 0x1000 = none) :
    Slab.new_in S b t = none := by
  unfold Slab.new_in
  rw [hb]
  rfl

theorem Slab.next_object_isSome {S : Nat} (s : Slab S)
    (h0 : s.remaining_object_count ≠ 0) :
    ∃ o s', s.next_object = some (o, s') := by
  cases hno : s.next_object with
  | none => exact absurd ((Slab.next_object_none_iff s).mp hno) h0
  | some pr =>
    obtain ⟨o, s'⟩ := pr
    exact ⟨o, s', rfl⟩

theorem freshSlab_count {S : Nat} (h : validObjectSize S) (blk : MemBlock) :
    (freshSlab S blk).remaining_object_count = objects_per_page S :=
  initBitmap_count h

theorem freshSlab_wf {S : Nat} (blk : MemBlock) : (freshSlab S blk).wf :=
  initBitmap_lt S

/-- Branch equation: pool empty, backing allocation fails. -/
theorem SlabManager.next_object_empty_err {S : Nat} (m : SlabManager S)
    (b : Backing) (t : Nat) (h0 : m.remaining_object_count = 0)
    (hb : b t 0x1000 0x1000 = none) :
    m.next_object b t = .allocError m (t + 1) := by
  unfold SlabManager.next_object
  rw [if_pos h0, Slab.new_in_eq_none b t hb]

/-- Branch equation: pool empty, backing allocation succeeds. -/
theorem SlabManager.next_object_empty_ok {S : Nat} (m : SlabManager S)
    (b : Backing) (t : Nat) (ns : Slab S) (o : MemBlock) (ns' : Slab S)
    (h0 : m.remaining_object_count = 0) (hn : Slab.new_in S b t = some ns)
    (hno : ns.next_object = some (o, ns')) :
    m.next_object b t =
      .ok o ⟨m.slabs ++ [ns'],
        m.remaining_object_count + ns'.remaining_object_count⟩ (t + 1) := by
  unfold SlabManager.next_object
  rw [if_pos h0]
  simp only [hn, hno]

/-- Branch equation: pool empty, fresh slab yields no object (the
`unwrap_unchecked` path, unreachable for a valid object size). -/
theorem SlabManager.next_object_empty_panic {S : Nat} (m : SlabManager S)
    (b : Backing) (t : Nat) (ns : Slab S)
    (h0 : m.remaining_object_count = 0) (hn : Slab.new_in S b t = some ns)
    (hno : ns.next_object = none) :
    m.next_object b t = .panicked := by
  unfold SlabManager.next_object
  rw [if_pos h0]
  simp only [hn, hno]

/-- Branch equation: pool non-empty, scan succeeds. -/
theorem SlabManager.next_object_scan_ok {S : Nat} (m : SlabManager S)
    (b : Backing) (t : Nat) (o : MemBlock) (slabs' : List (Slab S))
    (h0 : m.remaining_object_count ≠ 0)
    (hf : findIssue m.slabs = some (o, slabs')) :
    m.next_object b t = .ok o ⟨slabs', m.remaining_object_count - 1⟩ t := by
  unfold SlabManager.next_object
  rw [if_neg h0, hf]

/-- Branch equation: pool non-empty, scan fails (the `unwrap` panic). -/
theorem SlabManager.next_object_scan_panic {S : Nat} (m : SlabManager S)
    (b : Backing) (t : Nat) (h0 : m.remaining_object_count ≠ 0)
    (hf : findIssue m.slabs = none) :
    m.next_object b t = .panicked := by
  unfold SlabManager.next_object
  rw [if_neg h0, hf]

theorem SlabManager.next_object_allocError_inv {S : Nat} (m : SlabManager S)
    (b : Backing) (t : Nat) (m' : SlabManager S) (t' : Nat)
    (h : m.next_object b t = .allocError m' t') :
    m' = m ∧ t' = t + 1 ∧ m.remaining_object_count = 0 ∧
      b t 0x1000 0x1000 = none := by
  by_cases h0 : m.remaining_object_count = 0
  · cases hbb : b t 0x1000 0x1000 with
    | none =>
      rw [SlabManager.next_object_empty_err m b t h0 hbb] at h
      injection h with h1 h2
      exact ⟨h1.symm, h2.symm, h0, rfl⟩
    | some blk =>
      cases hno : (freshSlab S blk).next_object with
      | none =>
        rw [SlabManager.next_object_empty_panic m b t _ h0
          (Slab.new_in_eq_some b t blk hbb) hno] at h
        cases h
      | some pr =>
        obtain ⟨o, ns'⟩ := pr
        rw [SlabManager.next_object_empty_ok m b t _ o ns' h0
          (Slab.new_in_eq_some b t blk hbb) hno] at h
        cases h
  · cases hf : findIssue m.slabs with
    | none =>
      rw [SlabManager.next_object_scan_panic m b t h0 hf] at h
      cases h
    | some pr =>
      obtain ⟨o, sl⟩ := pr
      rw [SlabManager.next_object_scan_ok m b t o sl h0 hf] at h
      cases h

theorem Slab.return_object_step {S : Nat} (h : validObjectSize S) (s : Slab S)
    (ptr : Nat) (hw : s.wf) (hc : s.containsAddr ptr) (hlen : s.memLen ≤ 0x1000)
    (hbit : s.bitmap.testBit
      ((ptr - s.memAddr) >>> u64_trailing_zeros S) = false) :
    (s.return_object ptr).remaining_object_count =
        s.remaining_object_count + 1 ∧
      (s.return_object ptr).wf := by
  have hoff : ptr - s.memAddr < 4096 := by
    obtain ⟨h1, h2⟩ := hc
    omega
  obtain ⟨hidx, hopp⟩ := return_index_lt h (ptr - s.memAddr) hoff
  have hi64 : (ptr - s.memAddr) >>> u64_trailing_zeros S < 64 := by omega
  exact ⟨u64_count_ones_set s.bitmap _ hi64 hbit, or_shl_lt s.bitmap _ hw hi64⟩

theorem SlabManager.return_object_contract {S : Nat} (m : SlabManager S)
    (ptr : Nat) (l1 : List (Slab S)) (s : Slab S) (l2 : List (Slab S))
    (hsl : m.slabs = l1 ++ s :: l2) (hno : ∀ u ∈ l1, ¬u.containsAddr ptr)
    (hc : s.containsAddr ptr) :
    m.return_object ptr =
      some ⟨l1 ++ s.return_object ptr :: l2,
        m.remaining_object_count + 1⟩ := by
  unfold SlabManager.return_object
  rw [hsl, findContaining_first l1 s l2 ptr hno hc]
  rfl

/-! ## Claim theorems -/

theorem validObjectSize_64 : validObjectSize 64 :=
  ⟨by norm_num, by norm_num, 6, by norm_num⟩

set_option maxRecDepth 4000

/-- C6: for every non-empty Page, Issue selects the lowest-indexed free slot
(the lowest set bit of the free bitmap), clears exactly that bit, and returns
the byte range `[index * S, index * S + S)` of the Page's memory; a further
Issue on the result (no intervening Release) uses a strictly larger index, so
repeated Issues return slots in non-decreasing (indeed increasing) index
order. -/
theorem slab_issue_lowest_free_bit {S : Nat} (s : Slab S) (hw : s.wf)
    (o : MemBlock) (s' : Slab S) (h : s.next_object = some (o, s')) :
    o = ⟨s.memAddr + u64_trailing_zeros s.bitmap * S, S⟩ ∧
      s.bitmap.testBit (u64_trailing_zeros s.bitmap) = true ∧
      (∀ j, j < u64_trailing_zeros s.bitmap → s.bitmap.testBit j = false) ∧
      (∀ j, s'.bitmap.testBit j =
        (s.bitmap.testBit j && !(decide (j = u64_trailing_zeros s.bitmap)))) ∧
      (∀ o2 s'', s'.next_object = some (o2, s'') →
        u64_trailing_zeros s.bitmap < u64_trailing_zeros s'.bitmap) := by
  obtain ⟨h0, ho, hs'⟩ := Slab.next_object_some_spec s o s' h
  have hb0 : s.bitmap ≠ 0 := Slab.bitmap_ne_zero s h0
  have hi : u64_trailing_zeros s.bitmap < 64 := u64_trailing_zeros_lt _ hb0 hw
  obtain ⟨hbit, hlow⟩ := ctzAux_spec 64 s.bitmap hb0 hw
  refine ⟨ho, hbit, hlow, ?_, ?_⟩
  · intro j
    rw [hs']
    exact testBit_and_not_shl s.bitmap _ j hi hw
  · intro o2 s'' hno2
    have h0' : s'.remaining_object_count ≠ 0 :=
      (Slab.next_object_some_spec s' o2 s'' hno2).1
    have hb0' : s'.bitmap ≠ 0 := Slab.bitmap_ne_zero s' h0'
    have hw' : s'.wf := by
      rw [hs']
      exact lt_of_le_of_lt Nat.and_le_left hw
    obtain ⟨hbit', -⟩ := ctzAux_spec 64 s'.bitmap hb0' hw'
    have hbitu : s'.bitmap.testBit (u64_trailing_zeros s'.bitmap) = true := hbit'
    have hch : s'.bitmap.testBit (u64_trailing_zeros s'.bitmap) =
        (s.bitmap.testBit (u64_trailing_zeros s'.bitmap) &&
          !(decide (u64_trailing_zeros s'.bitmap = u64_trailing_zeros s.bitmap))) := by
      rw [hs']
      exact testBit_and_not_shl s.bitmap _ _ hi hw
    rw [hch, Bool.and_eq_true] at hbitu
    obtain ⟨h1, h2b⟩ := hbitu
    have h2 : u64_trailing_zeros s'.bitmap ≠ u64_trailing_zeros s.bitmap := by
      intro he
      rw [he] at h2b
      simp at h2b
    by_contra hle
    have h3 : u64_trailing_zeros s'.bitmap < u64_trailing_zeros s.bitmap := by
      omega
    have h4 := hlow _ h3
    rw [h4] at h1
    cases h1

theorem slab_issue_lowest_free_bit_witness :
    (⟨6, 0, 0x1000⟩ : Slab 64).bitmap.testBit
      (u64_trailing_zeros (⟨6, 0, 0x1000⟩ : Slab 64).bitmap) = true :=
  (slab_issue_lowest_free_bit (S := 64) ⟨6, 0, 0x1000⟩
    (by show (6 : Nat) < 2 ^ 64; norm_num)
    ⟨64, 64⟩ ⟨4, 0, 0x1000⟩
    (by rw [Slab.next_object_eq_of _ (by decide)]; decide)).2.1

/-- C7: Issue followed by immediate Release of the object just issued
restores the Page state (free bitmap, memory, and hence remaining free
count) exactly. -/
theorem slab_issue_release_round_trip {S : Nat} (hv : validObjectSize S)
    (s : Slab S) (hw : s.wf) (o : MemBlock) (s' : Slab S)
    (h : s.next_object = some (o, s')) :
    s'.return_object o.addr = s ∧
      (s'.return_object o.addr).remaining_object_count =
        s.remaining_object_count := by
  obtain ⟨b, a, l⟩ := s
  obtain ⟨h0, ho, hs'⟩ := Slab.next_object_some_spec _ o s' h
  have hb0 : b ≠ 0 := Slab.bitmap_ne_zero (S := S) ⟨b, a, l⟩ h0
  have hi : u64_trailing_zeros b < 64 := u64_trailing_zeros_lt _ hb0 hw
  obtain ⟨hbit, -⟩ := ctzAux_spec 64 b hb0 hw
  have hbitu : b.testBit (u64_trailing_zeros b) = true := hbit
  obtain ⟨k, hSk, h6, h11⟩ := validObjectSize_exp hv
  have htzS : u64_trailing_zeros S = k := by
    rw [hSk]
    exact u64_trailing_zeros_two_pow k (by omega)
  have hmain : s'.return_object o.addr = ⟨b, a, l⟩ := by
    subst hs' ho
    simp only [Slab.return_object, Slab.mk.injEq]
    refine ⟨?_, trivial, trivial⟩
    have hoff : a + u64_trailing_zeros b * S - a = u64_trailing_zeros b * S := by
      omega
    have hidx : (u64_trailing_zeros b * S) >>> u64_trailing_zeros S =
        u64_trailing_zeros b := by
      rw [htzS, hSk, Nat.shiftRight_eq_div_pow]
      exact Nat.mul_div_cancel _ (Nat.pos_pow_of_pos k (by omega))
    rw [hoff, hidx]
    apply Nat.eq_of_testBit_eq
    intro j
    rw [testBit_or_shl _ _ j hi, testBit_and_not_shl b _ j hi hw]
    by_cases hj : j = u64_trailing_zeros b
    · subst hj
      simp [hbitu]
    · simp [hj]
  exact ⟨hmain, by rw [hmain]⟩

theorem slab_issue_release_round_trip_witness :
    Slab.return_object (⟨4, 0, 0x1000⟩ : Slab 64) 64 = ⟨6, 0, 0x1000⟩ :=
  (slab_issue_release_round_trip validObjectSize_64 ⟨6, 0, 0x1000⟩
    (by show (6 : Nat) < 2 ^ 64; norm_num) ⟨64, 64⟩ ⟨4, 0, 0x1000⟩
    (by rw [Slab.next_object_eq_of _ (by decide)]; decide)).1

theorem issueN_zero {S : Nat} (s : Slab S) : issueN 0 s = s := rfl

theorem issueN_succ {S : Nat} (n : Nat) (s : Slab S) :
    issueN (n + 1) s =
      match s.next_object with
      | some (_, s') => issueN n s'
      | none => s := rfl

theorem stepBitmap_of_empty (b : Nat) (h : u64_count_ones b = 0) :
    stepBitmap b = b := by
  unfold stepBitmap
  rw [if_pos h]

theorem stepBitmap_of_issue {S : Nat} (s : Slab S) (o : MemBlock) (s' : Slab S)
    (h : s.next_object = some (o, s')) : stepBitmap s.bitmap = s'.bitmap := by
  obtain ⟨h0, -, hs'⟩ := Slab.next_object_some_spec s o s' h
  have h0' : ¬u64_count_ones s.bitmap = 0 := h0
  unfold stepBitmap
  rw [if_neg h0', hs']

theorem stepBitmapN_of_empty (n b : Nat) (h : u64_count_ones b = 0) :
    stepBitmapN n b = b := by
  induction n with
  | zero => rfl
  | succ n ih =>
    show stepBitmapN n (stepBitmap b) = b
    rw [stepBitmap_of_empty b h]
    exact ih

theorem issueN_bitmap {S : Nat} (n : Nat) : ∀ s : Slab S,
    (issueN n s).bitmap = stepBitmapN n s.bitmap ∧
      (issueN n s).memAddr = s.memAddr ∧ (issueN n s).memLen = s.memLen := by
  induction n with
  | zero => exact fun s => ⟨rfl, rfl, rfl⟩
  | succ n ih =>
    intro s
    rw [issueN_succ]
    cases hs : s.next_object with
    | none =>
      have h0 : s.remaining_object_count = 0 := (Slab.next_object_none_iff s).mp hs
      refine ⟨?_, rfl, rfl⟩
      show s.bitmap = stepBitmapN n (stepBitmap s.bitmap)
      rw [stepBitmap_of_empty s.bitmap h0, stepBitmapN_of_empty n s.bitmap h0]
    | some pr =>
      obtain ⟨o, s'⟩ := pr
      obtain ⟨ih1, ih2, ih3⟩ := ih s'
      have hstep : stepBitmap s.bitmap = s'.bitmap := stepBitmap_of_issue s o s' hs
      have hsp := Slab.next_object_some_spec s o s' hs
      refine ⟨?_, ?_, ?_⟩
      · show (issueN n s').bitmap = stepBitmapN n (stepBitmap s.bitmap)
        rw [ih1, hstep]
      · show (issueN n s').memAddr = s.memAddr
        rw [ih2, hsp.2.2]
      · show (issueN n s').memLen = s.memLen
        rw [ih3, hsp.2.2]

theorem validObjectSize_of_class {S : Nat}
    (hS : S = 64 ∨ S = 128 ∨ S = 256 ∨ S = 512 ∨ S = 1024 ∨ S = 2048) :
    validObjectSize S := by
  rcases hS with rfl | rfl | rfl | rfl | rfl | rfl
  · exact ⟨by norm_num, by norm_num, 6, by norm_num⟩
  · exact ⟨by norm_num, by norm_num, 7, by norm_num⟩
  · exact ⟨by norm_num, by norm_num, 8, by norm_num⟩
  · exact ⟨by norm_num, by norm_num, 9, by norm_num⟩
  · exact ⟨by norm_num, by norm_num, 10, by norm_num⟩
  · exact ⟨by norm_num, by norm_num, 11, by norm_num⟩

/-- C5: for every supported object size `S` (including `S = 64`, where all
64 bits of the `u64` bitmap are meaningful), a freshly created Page has all
meaningful bitmap bits set and reports remaining count `4096 / S`; after
exactly `4096 / S` successive Issues with no intervening Release it reports
remaining count 0, and a further Issue returns nothing. -/
theorem page_capacity_exhaustion (S : Nat)
    (hS : S = 64 ∨ S = 128 ∨ S = 256 ∨ S = 512 ∨ S = 1024 ∨ S = 2048)
    (blk : MemBlock) :
    (∀ j, j < objects_per_page S → (freshSlab S blk).bitmap.testBit j = true) ∧
      (freshSlab S blk).remaining_object_count = objects_per_page S ∧
      (issueN (objects_per_page S) (freshSlab S blk)).remaining_object_count
        = 0 ∧
      (issueN (objects_per_page S) (freshSlab S blk)).next_object = none := by
  have hv : validObjectSize S := validObjectSize_of_class hS
  obtain ⟨hbm, -, -⟩ := issueN_bitmap (objects_per_page S) (freshSlab S blk)
  have hcnt : (issueN (objects_per_page S)
        (freshSlab S blk)).remaining_object_count
      = u64_count_ones (stepBitmapN (objects_per_page S) (initBitmap S)) := by
    show u64_count_ones
      (issueN (objects_per_page S) (freshSlab S blk)).bitmap = _
    rw [hbm]
    rfl
  have hzero :
      u64_count_ones (stepBitmapN (objects_per_page S) (initBitmap S)) = 0 := by
    rcases hS with rfl | rfl | rfl | rfl | rfl | rfl <;> decide
  refine ⟨initBitmap_low_set hv, initBitmap_count hv, ?_, ?_⟩
  · rw [hcnt, hzero]
  · refine (Slab.next_object_none_iff _).mpr ?_
    rw [hcnt, hzero]

theorem page_capacity_exhaustion_witness :
    (freshSlab 64 ⟨0, 0x1000⟩).remaining_object_count = objects_per_page 64 :=
  (page_capacity_exhaustion 64 (Or.inl rfl) ⟨0, 0x1000⟩).2.1

/-- C10: for every Page of object size `S`, the bitmap bits at indices
`≥ 4096 / S` are clear at creation and remain clear across every Issue and
every Release whose pointer lies within the Page's memory range (of at most
one page); consequently the Page's remaining free count never exceeds
`4096 / S`. -/
theorem page_high_bits_invariant {S : Nat} (hv : validObjectSize S) :
    (∀ blk, (freshSlab S blk).highBitsClear) ∧
      (∀ s : Slab S, ∀ o s', s.next_object = some (o, s') →
        s.highBitsClear → s'.highBitsClear) ∧
      (∀ s : Slab S, ∀ ptr, s.containsAddr ptr → s.memLen ≤ 0x1000 →
        s.highBitsClear → (s.return_object ptr).highBitsClear) ∧
      (∀ s : Slab S, s.highBitsClear →
        s.remaining_object_count ≤ objects_per_page S) := by
  obtain ⟨-, hopp2, hopp64⟩ := initBitmap_spec hv
  refine ⟨?_, ?_, ?_, ?_⟩
  · intro blk j hj
    exact initBitmap_high_clear hv j hj
  · intro s o s' hno hhbc j hj
    obtain ⟨-, -, hs'⟩ := Slab.next_object_some_spec s o s' hno
    rw [hs']
    show (s.bitmap &&&
      u64_not (u64_one_shl (u64_trailing_zeros s.bitmap))).testBit j = false
    rw [Nat.testBit_land, hhbc j hj]
    rfl
  · intro s ptr hc hlen hhbc j hj
    have hoff : ptr - s.memAddr < 4096 := by
      obtain ⟨h1, h2⟩ := hc
      omega
    obtain ⟨hidx, -⟩ := return_index_lt hv (ptr - s.memAddr) hoff
    have hi64 : (ptr - s.memAddr) >>> u64_trailing_zeros S < 64 := by omega
    show (s.bitmap |||
      u64_one_shl ((ptr - s.memAddr) >>> u64_trailing_zeros S)).testBit j
        = false
    rw [testBit_or_shl _ _ j hi64, hhbc j hj]
    have hne : j ≠ (ptr - s.memAddr) >>> u64_trailing_zeros S := by omega
    simp [hne]
  · intro s hhbc
    have hlt : s.bitmap < 2 ^ objects_per_page S :=
      lt_two_pow_of_high_bits_clear hhbc
    exact popCountAux_le 64 (objects_per_page S) s.bitmap hlt

theorem page_high_bits_invariant_witness :
    (⟨2 ^ 32 - 1, 0, 0x1000⟩ : Slab 128).remaining_object_count ≤
      objects_per_page 128 :=
  (page_high_bits_invariant
      (⟨by norm_num, by norm_num, 7, by norm_num⟩ : validObjectSize 128)).2.2.2
    ⟨2 ^ 32 - 1, 0, 0x1000⟩
    (fun j hj => by
      show (2 ^ 32 - 1 : Nat).testBit j = false
      rw [Nat.testBit_two_pow_sub_one]
      have h32 : objects_per_page 128 = 32 := rfl
      rw [h32] at hj
      exact decide_eq_false (by omega))

theorem sumFree_eq_zero {S : Nat} (l : List (Slab S))
    (h : ∀ s ∈ l, s.remaining_object_count = 0) : sumFree l = 0 := by
  induction l with
  | nil => rfl
  | cons s rest ih =>
    rw [sumFree_cons, h s (by simp), ih fun u hu => h u (by simp [hu])]

/-- Shared step lemma: a non-empty pool (under its invariant) issues from the
first slab with a free slot, leaving every earlier slab untouched. -/
theorem pool_scan_step {S : Nat} (m : SlabManager S) (b : Backing) (t : Nat)
    (hwf : m.wf) (hin : m.inv) (h0 : m.remaining_object_count ≠ 0) :
    ∃ l1 s s' l2 o, m.slabs = l1 ++ s :: l2 ∧
      (∀ u ∈ l1, u.remaining_object_count = 0) ∧
      s.next_object = some (o, s') ∧
      s'.remaining_object_count + 1 = s.remaining_object_count ∧
      s'.wf ∧ s'.memAddr = s.memAddr ∧ s'.memLen = s.memLen ∧ o.len = S ∧
      m.next_object b t =
        .ok o ⟨l1 ++ s' :: l2, m.remaining_object_count - 1⟩ t := by
  cases hf : findIssue m.slabs with
  | none =>
    exfalso
    apply h0
    rw [hin]
    exact sumFree_eq_zero m.slabs ((findIssue_none_iff m.slabs).mp hf)
  | some pr =>
    obtain ⟨o, slabs'⟩ := pr
    obtain ⟨l1, s, s', l2, he1, he2, hemp, hnext⟩ :=
      findIssue_some_spec m.slabs o slabs' hf
    have hswf : s.wf := hwf s (by
      rw [he1]
      exact List.mem_append_right _ (List.mem_cons_self _ _))
    obtain ⟨hcnt, hwf', haddr, hlen, holen⟩ :=
      Slab.next_object_step s o s' hswf hnext
    refine ⟨l1, s, s', l2, o, he1, hemp, hnext, hcnt, hwf', haddr, hlen,
      holen, ?_⟩
    rw [SlabManager.next_object_scan_ok m b t o slabs' h0 hf, he2]

/-- Shared step lemma: an empty pool with a successful backing allocation
creates a fresh page, issues its first object, and appends it. -/
theorem pool_grow_step {S : Nat} (hv : validObjectSize S) (m : SlabManager S)
    (b : Backing) (t : Nat) (blk : MemBlock)
    (h0 : m.remaining_object_count = 0) (hbb : b t 0x1000 0x1000 = some blk) :
    ∃ o ns', (freshSlab S blk).next_object = some (o, ns') ∧
      ns'.remaining_object_count + 1 = objects_per_page S ∧
      ns'.wf ∧ o.len = S ∧
      m.next_object b t =
        .ok o ⟨m.slabs ++ [ns'],
          m.remaining_object_count + ns'.remaining_object_count⟩ (t + 1) := by
  have hfc : (freshSlab S blk).remaining_object_count = objects_per_page S :=
    freshSlab_count hv blk
  have hne : (freshSlab S blk).remaining_object_count ≠ 0 := by
    rw [hfc]
    obtain ⟨-, h2, -⟩ := initBitmap_spec hv
    omega
  obtain ⟨o, ns', hno⟩ := Slab.next_object_isSome (freshSlab S blk) hne
  obtain ⟨hcnt, hwf', -, -, holen⟩ :=
    Slab.next_object_step (freshSlab S blk) o ns' (freshSlab_wf blk) hno
  refine ⟨o, ns', hno, ?_, hwf', holen, ?_⟩
  · rw [← hfc]
    exact hcnt
  · exact SlabManager.next_object_empty_ok m b t (freshSlab S blk) o ns' h0
      (Slab.new_in_eq_some b t blk hbb) hno

/-- C3: for a Size-Class Pool (of a valid object size, with genuine `u64`
bitmaps) whose cached free count equals the sum of free slots over all owned
Pages, every Issue outcome — success or propagated allocation failure — and
every contract-respecting Release yield a pool that satisfies the same
equality again. -/
theorem pool_free_count_invariant {S : Nat} (hv : validObjectSize S)
    (m : SlabManager S) (hin : m.inv) (hwf : m.wf) :
    (∀ b t,
      (∀ o m' t', m.next_object b t = .ok o m' t' → m'.inv ∧ m'.wf) ∧
      (∀ m' t', m.next_object b t = .allocError m' t' → m'.inv ∧ m'.wf)) ∧
    (∀ ptr, ReturnContract m ptr →
      ∀ m', m.return_object ptr = some m' → m'.inv ∧ m'.wf) := by
  constructor
  · intro b t
    constructor
    · intro o m' t' hres
      by_cases h0 : m.remaining_object_count = 0
      · cases hbb : b t 0x1000 0x1000 with
        | none =>
          rw [SlabManager.next_object_empty_err m b t h0 hbb] at hres
          cases hres
        | some blk =>
          obtain ⟨o2, ns', hno, hcnt, hwf', holen, heq⟩ :=
            pool_grow_step hv m b t blk h0 hbb
          rw [heq] at hres
          injection hres with h1 h2 h3
          rw [← h2]
          constructor
          · show m.remaining_object_count + ns'.remaining_object_count =
              sumFree (m.slabs ++ [ns'])
            have hz : sumFree m.slabs = 0 := by rw [← hin]; exact h0
            have hnil : sumFree ([] : List (Slab S)) = 0 := rfl
            rw [sumFree_append, sumFree_cons, hz, hnil, h0]
            omega
          · intro u hu
            rcases List.mem_append.mp hu with hu1 | hu2
            · exact hwf u hu1
            · rcases List.mem_cons.mp hu2 with rfl | hcontra
              · exact hwf'
              · exact absurd hcontra (List.not_mem_nil u)
      · obtain ⟨l1, s, s', l2, o2, he1, hemp, hnext, hcnt, hwf', -, -, -,
          heq⟩ := pool_scan_step m b t hwf hin h0
        rw [heq] at hres
        injection hres with h1 h2 h3
        rw [← h2]
        constructor
        · show m.remaining_object_count - 1 = sumFree (l1 ++ s' :: l2)
          have hold : m.remaining_object_count = sumFree (l1 ++ s :: l2) := by
            rw [← he1]
            exact hin
          rw [sumFree_append, sumFree_cons] at hold ⊢
          omega
        · intro u hu
          rcases List.mem_append.mp hu with hu1 | hu2
          · exact hwf u (by rw [he1]; exact List.mem_append_left _ hu1)
          · rcases List.mem_cons.mp hu2 with rfl | hu3
            · exact hwf'
            · exact hwf u (by
                rw [he1]
                exact List.mem_append_right _ (List.mem_cons_of_mem _ hu3))
    · intro m' t' hres
      obtain ⟨h1, -, -, -⟩ :=
        SlabManager.next_object_allocError_inv m b t m' t' hres
      rw [h1]
      exact ⟨hin, hwf⟩
  · intro ptr hrc m' hres
    obtain ⟨l1, s, l2, hsl, hno, hcon, hlen, hbit⟩ := hrc
    have hswf : s.wf := hwf s (by
      rw [hsl]
      exact List.mem_append_right _ (List.mem_cons_self _ _))
    obtain ⟨hcnt, hwf'⟩ := Slab.return_object_step hv s ptr hswf hcon hlen hbit
    rw [SlabManager.return_object_contract m ptr l1 s l2 hsl hno hcon] at hres
    injection hres with h1
    rw [← h1]
    constructor
    · show m.remaining_object_count + 1 =
        sumFree (l1 ++ s.return_object ptr :: l2)
      have hold : m.remaining_object_count = sumFree (l1 ++ s :: l2) := by
        rw [← hsl]
        exact hin
      rw [sumFree_append, sumFree_cons] at hold ⊢
      rw [hcnt]
      omega
    · intro u hu
      rcases List.mem_append.mp hu with hu1 | hu2
      · exact hwf u (by rw [hsl]; exact List.mem_append_left _ hu1)
      · rcases List.mem_cons.mp hu2 with rfl | hu3
        · exact hwf'
        · exact hwf u (by
            rw [hsl]
            exact List.mem_append_right _ (List.mem_cons_of_mem _ hu3))

theorem pool_free_count_invariant_witness :
    SlabManager.inv (⟨[⟨2 ^ 64 - 2, 0x1000, 0x1000⟩], 63⟩ : SlabManager 64) ∧
      SlabManager.wf
        (⟨[⟨2 ^ 64 - 2, 0x1000, 0x1000⟩], 63⟩ : SlabManager 64) := by
  refine ((pool_free_count_invariant validObjectSize_64
      (SlabManager.new_in 64) rfl ?_).1 b0 0).1 ⟨0x1000, 64⟩ _ 1 ?_
  · intro u hu
    exact absurd hu (List.not_mem_nil u)
  · have hn := Slab.new_in_eq_some (S := 64) b0 0 ⟨0x1000, 0x1000⟩ (by decide)
    have hno : (freshSlab 64 ⟨0x1000, 0x1000⟩).next_object =
        some (⟨0x1000, 64⟩, ⟨2 ^ 64 - 2, 0x1000, 0x1000⟩) := by
      rw [Slab.next_object_eq_of _ (by decide)]
      decide
    rw [SlabManager.next_object_empty_ok (SlabManager.new_in 64) b0 0 _ _ _
      rfl hn hno]
    decide

/-- C4: a Pool issue under the cached-count invariant is first-fit: if some
owned Page has a free slot, it issues from the first such Page in creation
order, decrementing the cached count; otherwise it creates a new Page
(propagating allocation failure with the pool unchanged), issues its first
object (which always succeeds for a valid object size), appends the Page at
the end, and adds the new Page's remaining capacity to the cached count. -/
theorem pool_first_fit {S : Nat} (hv : validObjectSize S) (m : SlabManager S)
    (hin : m.inv) (hwf : m.wf) (b : Backing) (t : Nat) :
    ((∃ u ∈ m.slabs, u.remaining_object_count ≠ 0) →
      ∃ l1 s s' l2 o, m.slabs = l1 ++ s :: l2 ∧
        (∀ u ∈ l1, u.remaining_object_count = 0) ∧
        s.remaining_object_count ≠ 0 ∧ s.next_object = some (o, s') ∧
        m.next_object b t =
          .ok o ⟨l1 ++ s' :: l2, m.remaining_object_count - 1⟩ t) ∧
    ((∀ u ∈ m.slabs, u.remaining_object_count = 0) →
      (b t 0x1000 0x1000 = none →
        m.next_object b t = .allocError m (t + 1)) ∧
      (∀ blk, b t 0x1000 0x1000 = some blk →
        ∃ o ns', (freshSlab S blk).next_object = some (o, ns') ∧
          m.next_object b t =
            .ok o ⟨m.slabs ++ [ns'],
              m.remaining_object_count + ns'.remaining_object_count⟩
              (t + 1))) := by
  constructor
  · intro hex
    obtain ⟨u, hu, hucnt⟩ := hex
    have h0 : m.remaining_object_count ≠ 0 := by
      have h1 := mem_le_sumFree m.slabs u hu
      rw [hin]
      omega
    obtain ⟨l1, s, s', l2, o, he1, hemp, hnext, -, -, -, -, -, heq⟩ :=
      pool_scan_step m b t hwf hin h0
    exact ⟨l1, s, s', l2, o, he1, hemp,
      (Slab.next_object_some_spec s o s' hnext).1, hnext, heq⟩
  · intro hall
    have h0 : m.remaining_object_count = 0 := by
      rw [hin]
      exact sumFree_eq_zero m.slabs hall
    refine ⟨fun hbb => SlabManager.next_object_empty_err m b t h0 hbb, ?_⟩
    intro blk hbb
    obtain ⟨o, ns', hno, -, -, -, heq⟩ := pool_grow_step hv m b t blk h0 hbb
    exact ⟨o, ns', hno, heq⟩

theorem pool_first_fit_witness :
    SlabManager.next_object (SlabManager.new_in 64) bNone 0 =
      .allocError (SlabManager.new_in 64) 1 :=
  ((pool_first_fit validObjectSize_64 (SlabManager.new_in 64) rfl
      (fun u hu => absurd hu (List.not_mem_nil u)) bNone 0).2
    (fun u hu => absurd hu (List.not_mem_nil u))).1 rfl

/-- C8: a Pool issue returns an allocation failure iff the pool must create
a new Page (its cached free count is zero) and the backing allocator's
single Acquire at that point fails; the failure is propagated immediately
(time advances by exactly the one backing call) and the pool's pages and
cached free count are unchanged. -/
theorem pool_alloc_failure_iff {S : Nat} (m : SlabManager S) (b : Backing)
    (t : Nat) :
    (∀ m' t', m.next_object b t = .allocError m' t' →
      m' = m ∧ t' = t + 1 ∧ m.remaining_object_count = 0 ∧
        b t 0x1000 0x1000 = none) ∧
    (m.remaining_object_count = 0 → b t 0x1000 0x1000 = none →
      m.next_object b t = .allocError m (t + 1)) :=
  ⟨fun m' t' h => SlabManager.next_object_allocError_inv m b t m' t' h,
    fun h0 hb => SlabManager.next_object_empty_err m b t h0 hb⟩

theorem pool_alloc_failure_iff_witness :
    SlabManager.next_object (⟨[], 0⟩ : SlabManager 128) bNone 5 =
      .allocError (⟨[], 0⟩ : SlabManager 128) 6 :=
  (pool_alloc_failure_iff (⟨[], 0⟩ : SlabManager 128) bNone 5).2 rfl rfl

/-! ## Router dispatch lemmas -/

theorem not_supportedClass_iff (c : Nat) :
    ¬supportedClass c ↔
      c ≠ 64 ∧ c ≠ 128 ∧ c ≠ 256 ∧ c ≠ 512 ∧ c ≠ 1024 ∧ c ≠ 2048 := by
  unfold supportedClass
  omega

theorem SlabAllocator.allocate_class_64 (r : SlabAllocator) (b : Backing)
    (t size align : Nat) (h : allocation_size size align = 64) :
    r.allocate b t size align =
      match r.slab_64.next_object b t with
      | .ok object m t' => ⟨.ok object, { r with slab_64 := m }, t'⟩
      | .allocError m t' => ⟨.allocError, { r with slab_64 := m }, t'⟩
      | .panicked => ⟨.panicked, r, t⟩ := by
  simp only [SlabAllocator.allocate]
  rw [if_pos h]

theorem SlabAllocator.allocate_class_128 (r : SlabAllocator) (b : Backing)
    (t size align : Nat) (h : allocation_size size align = 128) :
    r.allocate b t size align =
      match r.slab_128.next_object b t with
      | .ok object m t' => ⟨.ok object, { r with slab_128 := m }, t'⟩
      | .allocError m t' => ⟨.allocError, { r with slab_128 := m }, t'⟩
      | .panicked => ⟨.panicked, r, t⟩ := by
  simp only [SlabAllocator.allocate]
  rw [if_neg (by omega : ¬allocation_size size align = 64), if_pos h]

theorem SlabAllocator.allocate_class_256 (r : SlabAllocator) (b : Backing)
    (t size align : Nat) (h : allocation_size size align = 256) :
    r.allocate b t size align =
      match r.slab_256.next_object b t with
      | .ok object m t' => ⟨.ok object, { r with slab_256 := m }, t'⟩
      | .allocError m t' => ⟨.allocError, { r with slab_256 := m }, t'⟩
      | .panicked => ⟨.panicked, r, t⟩ := by
  simp only [SlabAllocator.allocate]
  rw [if_neg (by omega : ¬allocation_size size align = 64), if_neg (by omega : ¬allocation_size size align = 128), if_pos h]

theorem SlabAllocator.allocate_class_512 (r : SlabAllocator) (b : Backing)
    (t size align : Nat) (h : allocation_size size align = 512) :
    r.allocate b t size align =
      match r.slab_512.next_object b t with
      | .ok object m t' => ⟨.ok object, { r with slab_512 := m }, t'⟩
      | .allocError m t' => ⟨.allocError, { r with slab_512 := m }, t'⟩
      | .panicked => ⟨.panicked, r, t⟩ := by
  simp only [SlabAllocator.allocate]
  rw [if_neg (by omega : ¬allocation_size size align = 64), if_neg (by omega : ¬allocation_size size align = 128), if_neg (by omega : ¬allocation_size size align = 256), if_pos h]

theorem SlabAllocator.allocate_class_1024 (r : SlabAllocator) (b : Backing)
    (t size align : Nat) (h : allocation_size size align = 1024) :
    r.allocate b t size align =
      match r.slab_1024.next_object b t with
      | .ok object m t' => ⟨.ok object, { r with slab_1024 := m }, t'⟩
      | .allocError m t' => ⟨.allocError, { r with slab_1024 := m }, t'⟩
      | .panicked => ⟨.panicked, r, t⟩ := by
  simp only [SlabAllocator.allocate]
  rw [if_neg (by omega : ¬allocation_size size align = 64), if_neg (by omega : ¬allocation_size size align = 128), if_neg (by omega : ¬allocation_size size align = 256), if_neg (by omega : ¬allocation_size size align = 512), if_pos h]

theorem SlabAllocator.allocate_class_2048 (r : SlabAllocator) (b : Backing)
    (t size align : Nat) (h : allocation_size size align = 2048) :
    r.allocate b t size align =
      match r.slab_2048.next_object b t with
      | .ok object m t' => ⟨.ok object, { r with slab_2048 := m }, t'⟩
      | .allocError m t' => ⟨.allocError, { r with slab_2048 := m }, t'⟩
      | .panicked => ⟨.panicked, r, t⟩ := by
  simp only [SlabAllocator.allocate]
  rw [if_neg (by omega : ¬allocation_size size align = 64), if_neg (by omega : ¬allocation_size size align = 128), if_neg (by omega : ¬allocation_size size align = 256), if_neg (by omega : ¬allocation_size size align = 512), if_neg (by omega : ¬allocation_size size align = 1024), if_pos h]

theorem SlabAllocator.allocate_fallback (r : SlabAllocator) (b : Backing)
    (t size align : Nat) (h : ¬supportedClass (allocation_size size align)) :
    r.allocate b t size align =
      match b t size align with
      | some blk => ⟨.ok blk, r, t + 1⟩
      | none => ⟨.allocError, r, t + 1⟩ := by
  obtain ⟨h1, h2, h3, h4, h5, h6⟩ := (not_supportedClass_iff _).mp h
  simp only [SlabAllocator.allocate]
  rw [if_neg h1, if_neg h2, if_neg h3, if_neg h4, if_neg h5, if_neg h6]

theorem SlabAllocator.deallocate_class_64 (r : SlabAllocator)
    (ptr size align : Nat) (h : allocation_size size align = 64) :
    r.deallocate ptr size align =
      (r.slab_64.return_object ptr).map fun m => { r with slab_64 := m } := by
  simp only [SlabAllocator.deallocate]
  rw [if_pos h]

theorem SlabAllocator.deallocate_class_128 (r : SlabAllocator)
    (ptr size align : Nat) (h : allocation_size size align = 128) :
    r.deallocate ptr size align =
      (r.slab_128.return_object ptr).map fun m => { r with slab_128 := m } := by
  simp only [SlabAllocator.deallocate]
  rw [if_neg (by omega : ¬allocation_size size align = 64), if_pos h]

theorem SlabAllocator.deallocate_class_256 (r : SlabAllocator)
    (ptr size align : Nat) (h : allocation_size size align = 256) :
    r.deallocate ptr size align =
      (r.slab_256.return_object ptr).map fun m => { r with slab_256 := m } := by
  simp only [SlabAllocator.deallocate]
  rw [if_neg (by omega : ¬allocation_size size align = 64), if_neg (by omega : ¬allocation_size size align = 128), if_pos h]

theorem SlabAllocator.deallocate_class_512 (r : SlabAllocator)
    (ptr size align : Nat) (h : allocation_size size align = 512) :
    r.deallocate ptr size align =
      (r.slab_512.return_object ptr).map fun m => { r with slab_512 := m } := by
  simp only [SlabAllocator.deallocate]
  rw [if_neg (by omega : ¬allocation_size size align = 64), if_neg (by omega : ¬allocation_size size align = 128), if_neg (by omega : ¬allocation_size size align = 256), if_pos h]

theorem SlabAllocator.deallocate_class_1024 (r : SlabAllocator)
    (ptr size align : Nat) (h : allocation_size size align = 1024) :
    r.deallocate ptr size align =
      (r.slab_1024.return_object ptr).map fun m => { r with slab_1024 := m } := by
  simp only [SlabAllocator.deallocate]
  rw [if_neg (by omega : ¬allocation_size size align = 64), if_neg (by omega : ¬allocation_size size align = 128), if_neg (by omega : ¬allocation_size size align = 256), if_neg (by omega : ¬allocation_size size align = 512), if_pos h]

theorem SlabAllocator.deallocate_class_2048 (r : SlabAllocator)
    (ptr size align : Nat) (h : allocation_size size align = 2048) :
    r.deallocate ptr size align =
      (r.slab_2048.return_object ptr).map fun m => { r with slab_2048 := m } := by
  simp only [SlabAllocator.deallocate]
  rw [if_neg (by omega : ¬allocation_size size align = 64), if_neg (by omega : ¬allocation_size size align = 128), if_neg (by omega : ¬allocation_size size align = 256), if_neg (by omega : ¬allocation_size size align = 512), if_neg (by omega : ¬allocation_size size align = 1024), if_pos h]

theorem SlabAllocator.deallocate_fallback (r : SlabAllocator)
    (ptr size align : Nat)
    (h : ¬supportedClass (allocation_size size align)) :
    r.deallocate ptr size align = some r := by
  obtain ⟨h1, h2, h3, h4, h5, h6⟩ := (not_supportedClass_iff _).mp h
  simp only [SlabAllocator.deallocate]
  rw [if_neg h1, if_neg h2, if_neg h3, if_neg h4, if_neg h5, if_neg h6]

theorem SlabManager.next_object_ok_len {S : Nat} (m : SlabManager S)
    (b : Backing) (t : Nat) (o : MemBlock) (m' : SlabManager S) (t' : Nat)
    (h : m.next_object b t = .ok o m' t') : o.len = S := by
  by_cases h0 : m.remaining_object_count = 0
  · cases hbb : b t 0x1000 0x1000 with
    | none =>
      rw [SlabManager.next_object_empty_err m b t h0 hbb] at h
      cases h
    | some blk =>
      cases hno : (freshSlab S blk).next_object with
      | none =>
        rw [SlabManager.next_object_empty_panic m b t _ h0
          (Slab.new_in_eq_some b t blk hbb) hno] at h
        cases h
      | some pr =>
        obtain ⟨o2, ns'⟩ := pr
        rw [SlabManager.next_object_empty_ok m b t _ o2 ns' h0
          (Slab.new_in_eq_some b t blk hbb) hno] at h
        injection h with h1 h2 h3
        rw [← h1, (Slab.next_object_some_spec _ o2 ns' hno).2.1]
  · cases hf : findIssue m.slabs with
    | none =>
      rw [SlabManager.next_object_scan_panic m b t h0 hf] at h
      cases h
    | some pr =>
      obtain ⟨o2, slabs'⟩ := pr
      rw [SlabManager.next_object_scan_ok m b t o2 slabs' h0 hf] at h
      injection h with h1 h2 h3
      obtain ⟨l1, s, s', l2, -, -, -, hnext⟩ :=
        findIssue_some_spec m.slabs o2 slabs' hf
      rw [← h1, (Slab.next_object_some_spec s o2 s' hnext).2.1]

theorem SlabAllocator.allocate_ok_inv (r : SlabAllocator) (b : Backing)
    (t size align : Nat) (o : MemBlock)
    (h : (r.allocate b t size align).result = .ok o) :
    o.len = allocation_size size align ∨
      (¬supportedClass (allocation_size size align) ∧
        b t size align = some o) := by
  by_cases h64 : allocation_size size align = 64
  · left
    rw [SlabAllocator.allocate_class_64 r b t size align h64] at h
    cases hmr : r.slab_64.next_object b t with
    | ok o2 m' t2 =>
      rw [hmr] at h
      injection h with h1
      rw [← h1, SlabManager.next_object_ok_len _ b t o2 m' t2 hmr, h64]
    | allocError m' t2 =>
      rw [hmr] at h
      cases h
    | panicked =>
      rw [hmr] at h
      cases h
  by_cases h128 : allocation_size size align = 128
  · left
    rw [SlabAllocator.allocate_class_128 r b t size align h128] at h
    cases hmr : r.slab_128.next_object b t with
    | ok o2 m' t2 =>
      rw [hmr] at h
      injection h with h1
      rw [← h1, SlabManager.next_object_ok_len _ b t o2 m' t2 hmr, h128]
    | allocError m' t2 =>
      rw [hmr] at h
      cases h
    | panicked =>
      rw [hmr] at h
      cases h
  by_cases h256 : allocation_size size align = 256
  · left
    rw [SlabAllocator.allocate_class_256 r b t size align h256] at h
    cases hmr : r.slab_256.next_object b t with
    | ok o2 m' t2 =>
      rw [hmr] at h
      injection h with h1
      rw [← h1, SlabManager.next_object_ok_len _ b t o2 m' t2 hmr, h256]
    | allocError m' t2 =>
      rw [hmr] at h
      cases h
    | panicked =>
      rw [hmr] at h
      cases h
  by_cases h512 : allocation_size size align = 512
  · left
    rw [SlabAllocator.allocate_class_512 r b t size align h512] at h
    cases hmr : r.slab_512.next_object b t with
    | ok o2 m' t2 =>
      rw [hmr] at h
      injection h with h1
      rw [← h1, SlabManager.next_object_ok_len _ b t o2 m' t2 hmr, h512]
    | allocError m' t2 =>
      rw [hmr] at h
      cases h
    | panicked =>
      rw [hmr] at h
      cases h
  by_cases h1024 : allocation_size size align = 1024
  · left
    rw [SlabAllocator.allocate_class_1024 r b t size align h1024] at h
    cases hmr : r.slab_1024.next_object b t with
    | ok o2 m' t2 =>
      rw [hmr] at h
      injection h with h1
      rw [← h1, SlabManager.next_object_ok_len _ b t o2 m' t2 hmr, h1024]
    | allocError m' t2 =>
      rw [hmr] at h
      cases h
    | panicked =>
      rw [hmr] at h
      cases h
  by_cases h2048 : allocation_size size align = 2048
  · left
    rw [SlabAllocator.allocate_class_2048 r b t size align h2048] at h
    cases hmr : r.slab_2048.next_object b t with
    | ok o2 m' t2 =>
      rw [hmr] at h
      injection h with h1
      rw [← h1, SlabManager.next_object_ok_len _ b t o2 m' t2 hmr, h2048]
    | allocError m' t2 =>
      rw [hmr] at h
      cases h
    | panicked =>
      rw [hmr] at h
      cases h
  have hns : ¬supportedClass (allocation_size size align) := by
    rw [not_supportedClass_iff]
    exact ⟨h64, h128, h256, h512, h1024, h2048⟩
  right
  rw [SlabAllocator.allocate_fallback r b t size align hns] at h
  cases hbb : b t size align with
  | some blk =>
    rw [hbb] at h
    injection h with h1
    exact ⟨hns, by rw [← h1]⟩
  | none =>
    rw [hbb] at h
    cases h

/-- C1 counterexample: the request Issue(1, 1) has computed class
`max(next_power_of_two 1, 1) = 1 < 64`, yet the fresh router's 64-class pool
is left completely untouched (no page created, cached count still 0) and the
request is answered by the backing allocator with a 1-byte range — it is not
served from the 64-class pool, contradicting the claim that such requests
are rounded up into the 64-byte class. -/
theorem router_small_class_counterexample :
    allocation_size 1 1 = 1 ∧
      (SlabAllocator.new_in.allocate b0 0 1 1).state.slab_64 =
        SlabManager.new_in 64 ∧
      (SlabAllocator.new_in.allocate b0 0 1 1).result = .ok ⟨0x1000, 1⟩ := by
  have hcl : allocation_size 1 1 = 1 := by
    show max (next_power_of_two 1) 1 = 1
    rw [next_power_of_two_def]
    decide
  have hns : ¬supportedClass (allocation_size 1 1) := by
    rw [not_supportedClass_iff, hcl]
    norm_num
  rw [SlabAllocator.allocate_fallback SlabAllocator.new_in b0 0 1 1 hns]
  refine ⟨hcl, ?_, ?_⟩ <;> decide

/-- C1 (amended): a request whose computed class
`max(next_power_of_two size, align)` is smaller than the minimum supported
class 64 is not served by any slab pool — it bypasses slab management
entirely, is delegated unchanged to the backing allocator, and leaves the
whole router state untouched. -/
theorem router_small_class_bypasses (r : SlabAllocator) (b : Backing)
    (t size align : Nat) (h : allocation_size size align < 64) :
    (b t size align = none →
      r.allocate b t size align = ⟨.allocError, r, t + 1⟩) ∧
    (∀ blk, b t size align = some blk →
      r.allocate b t size align = ⟨.ok blk, r, t + 1⟩) := by
  have hns : ¬supportedClass (allocation_size size align) := by
    rw [not_supportedClass_iff]
    omega
  rw [SlabAllocator.allocate_fallback r b t size align hns]
  constructor
  · intro hbb
    rw [hbb]
  · intro blk hbb
    rw [hbb]

theorem router_small_class_bypasses_witness :
    SlabAllocator.allocate SlabAllocator.new_in b0 0 3 1 =
      ⟨.ok ⟨0x1000, 3⟩, SlabAllocator.new_in, 1⟩ :=
  (router_small_class_bypasses SlabAllocator.new_in b0 0 3 1
    (by show max (next_power_of_two 3) 1 < 64
        rw [next_power_of_two_def]
        decide)).2
    ⟨0x1000, 3⟩ (by decide)

/-- C2 counterexample: Issue(3, 1) succeeds with a range of length 3,
although 3 ≤ 2048 and `max(next_power_of_two 3, 1) = 4 ≠ 3`: the claim's
exact-length clause fails for requests whose computed class is not one of
the supported slab classes (here the request is delegated to the backing
allocator, which legitimately returns exactly 3 bytes). -/
theorem router_issue_length_counterexample :
    (SlabAllocator.new_in.allocate b0 0 3 1).result = .ok ⟨0x1000, 3⟩ ∧
      allocation_size 3 1 = 4 ∧ (3 : Nat) ≤ 2048 ∧ (3 : Nat) ≠ 4 := by
  have hcl : allocation_size 3 1 = 4 := by
    show max (next_power_of_two 3) 1 = 4
    rw [next_power_of_two_def]
    decide
  have hns : ¬supportedClass (allocation_size 3 1) := by
    rw [not_supportedClass_iff, hcl]
    norm_num
  refine ⟨?_, hcl, by norm_num, by norm_num⟩
  rw [SlabAllocator.allocate_fallback SlabAllocator.new_in b0 0 3 1 hns]
  decide

/-- C2 (amended): provided the backing allocator honours its contract
(returned blocks are at least the requested size), every successful Issue
returns a range no shorter than the requested size; and whenever the
computed class `max(next_power_of_two size, align)` is one of the six
supported classes, the returned range's length is exactly that class. -/
theorem router_issue_length (r : SlabAllocator) (b : Backing)
    (t size align : Nat)
    (hb : ∀ u sz al blk, b u sz al = some blk → sz ≤ blk.len)
    (hsize : size ≤ 2 ^ 64) :
    ∀ o, (r.allocate b t size align).result = .ok o →
      size ≤ o.len ∧
      (supportedClass (allocation_size size align) →
        o.len = allocation_size size align) := by
  intro o h
  rcases SlabAllocator.allocate_ok_inv r b t size align o h with
    hlen | ⟨hns, hbb⟩
  · constructor
    · have h1 := le_next_power_of_two size hsize
      have h2 : next_power_of_two size ≤ allocation_size size align :=
        le_max_left _ _
      omega
    · intro _
      exact hlen
  · exact ⟨hb t size align o hbb, fun hsup => absurd hsup hns⟩

theorem router_issue_length_witness :
    (⟨0x1000, 64⟩ : MemBlock).len = allocation_size 64 1 := by
  have hcl : allocation_size 64 1 = 64 := by
    show max (next_power_of_two 64) 1 = 64
    rw [next_power_of_two_def]
    decide
  have hok : (SlabAllocator.new_in.allocate b0 0 64 1).result =
      .ok ⟨0x1000, 64⟩ := by
    rw [SlabAllocator.allocate_class_64 SlabAllocator.new_in b0 0 64 1 hcl]
    have hn := Slab.new_in_eq_some (S := 64) b0 0 ⟨0x1000, 0x1000⟩ (by decide)
    have hno : (freshSlab 64 ⟨0x1000, 0x1000⟩).next_object =
        some (⟨0x1000, 64⟩, ⟨2 ^ 64 - 2, 0x1000, 0x1000⟩) := by
      rw [Slab.next_object_eq_of _ (by decide)]
      decide
    rw [SlabManager.next_object_empty_ok (SlabAllocator.new_in.slab_64) b0 0
      _ _ _ rfl hn hno]
  have hres := router_issue_length SlabAllocator.new_in b0 0 64 1
    (fun u sz al blk hblk => by
      have : blk = ⟨(u + 1) * 0x1000, sz⟩ := by
        have hu : b0 u sz al = some ⟨(u + 1) * 0x1000, sz⟩ := rfl
        rw [hu] at hblk
        exact (Option.some_inj.mp hblk).symm
      rw [this])
    (by norm_num) ⟨0x1000, 64⟩ hok
  exact hres.2 (by rw [hcl]; exact Or.inl rfl)

/-- C9: every Issue or Release that routes to one supported size class
leaves the pool of every other size class (its pages and cached free count)
unchanged; in particular Issue(64, 1) and Issue(128, 1) route to independent
classes, and releasing the 64-byte object does not alter the 128-byte
class's pool. -/
theorem router_class_isolation (r : SlabAllocator) (b : Backing)
    (t size align ptr : Nat) :
    (     (allocation_size size align ≠ 64 →
        (r.allocate b t size align).state.slab_64 = r.slab_64) ∧
     (allocation_size size align ≠ 128 →
        (r.allocate b t size align).state.slab_128 = r.slab_128) ∧
     (allocation_size size align ≠ 256 →
        (r.allocate b t size align).state.slab_256 = r.slab_256) ∧
     (allocation_size size align ≠ 512 →
        (r.allocate b t size align).state.slab_512 = r.slab_512) ∧
     (allocation_size size align ≠ 1024 →
        (r.allocate b t size align).state.slab_1024 = r.slab_1024) ∧
     (allocation_size size align ≠ 2048 →
        (r.allocate b t size align).state.slab_2048 = r.slab_2048)) ∧
    (∀ r2, r.deallocate ptr size align = some r2 →
      (allocation_size size align ≠ 64 → r2.slab_64 = r.slab_64) ∧
      (allocation_size size align ≠ 128 → r2.slab_128 = r.slab_128) ∧
      (allocation_size size align ≠ 256 → r2.slab_256 = r.slab_256) ∧
      (allocation_size size align ≠ 512 → r2.slab_512 = r.slab_512) ∧
      (allocation_size size align ≠ 1024 → r2.slab_1024 = r.slab_1024) ∧
      (allocation_size size align ≠ 2048 → r2.slab_2048 = r.slab_2048)) := by
  by_cases h64 : allocation_size size align = 64
  · constructor
    · rw [SlabAllocator.allocate_class_64 r b t size align h64]
      cases hres : r.slab_64.next_object b t with
      | ok o m2 t2 =>
        exact ⟨fun hne => absurd h64 hne, fun _ => rfl, fun _ => rfl, fun _ => rfl, fun _ => rfl, fun _ => rfl⟩
      | allocError m2 t2 =>
        exact ⟨fun hne => absurd h64 hne, fun _ => rfl, fun _ => rfl, fun _ => rfl, fun _ => rfl, fun _ => rfl⟩
      | panicked =>
        exact ⟨fun hne => absurd h64 hne, fun _ => rfl, fun _ => rfl, fun _ => rfl, fun _ => rfl, fun _ => rfl⟩
    · intro r2 hr2
      rw [SlabAllocator.deallocate_class_64 r ptr size align h64] at hr2
      cases hro : r.slab_64.return_object ptr with
      | none =>
        rw [hro] at hr2
        cases hr2
      | some mm =>
        rw [hro] at hr2
        injection hr2 with h1
        rw [← h1]
        exact ⟨fun hne => absurd h64 hne, fun _ => rfl, fun _ => rfl, fun _ => rfl, fun _ => rfl, fun _ => rfl⟩
  by_cases h128 : allocation_size size align = 128
  · constructor
    · rw [SlabAllocator.allocate_class_128 r b t size align h128]
      cases hres : r.slab_128.next_object b t with
      | ok o m2 t2 =>
        exact ⟨fun _ => rfl, fun hne => absurd h128 hne, fun _ => rfl, fun _ => rfl, fun _ => rfl, fun _ => rfl⟩
      | allocError m2 t2 =>
        exact ⟨fun _ => rfl, fun hne => absurd h128 hne, fun _ => rfl, fun _ => rfl, fun _ => rfl, fun _ => rfl⟩
      | panicked =>
        exact ⟨fun _ => rfl, fun hne => absurd h128 hne, fun _ => rfl, fun _ => rfl, fun _ => rfl, fun _ => rfl⟩
    · intro r2 hr2
      rw [SlabAllocator.deallocate_class_128 r ptr size align h128] at hr2
      cases hro : r.slab_128.return_object ptr with
      | none =>
        rw [hro] at hr2
        cases hr2
      | some mm =>
        rw [hro] at hr2
        injection hr2 with h1
        rw [← h1]
        exact ⟨fun _ => rfl, fun hne => absurd h128 hne, fun _ => rfl, fun _ => rfl, fun _ => rfl, fun _ => rfl⟩
  by_cases h256 : allocation_size size align = 256
  · constructor
    · rw [SlabAllocator.allocate_class_256 r b t size align h256]
      cases hres : r.slab_256.next_object b t with
      | ok o m2 t2 =>
        exact ⟨fun _ => rfl, fun _ => rfl, fun hne => absurd h256 hne, fun _ => rfl, fun _ => rfl, fun _ => rfl⟩
      | allocError m2 t2 =>
        exact ⟨fun _ => rfl, fun _ => rfl, fun hne => absurd h256 hne, fun _ => rfl, fun _ => rfl, fun _ => rfl⟩
      | panicked =>
        exact ⟨fun _ => rfl, fun _ => rfl, fun hne => absurd h256 hne, fun _ => rfl, fun _ => rfl, fun _ => rfl⟩
    · intro r2 hr2
      rw [SlabAllocator.deallocate_class_256 r ptr size align h256] at hr2
      cases hro : r.slab_256.return_object ptr with
      | none =>
        rw [hro] at hr2
        cases hr2
      | some mm =>
        rw [hro] at hr2
        injection hr2 with h1
        rw [← h1]
        exact ⟨fun _ => rfl, fun _ => rfl, fun hne => absurd h256 hne, fun _ => rfl, fun _ => rfl, fun _ => rfl⟩
  by_cases h512 : allocation_size size align = 512
  · constructor
    · rw [SlabAllocator.allocate_class_512 r b t size align h512]
      cases hres : r.slab_512.next_object b t with
      | ok o m2 t2 =>
        exact ⟨fun _ => rfl, fun _ => rfl, fun _ => rfl, fun hne => absurd h512 hne, fun _ => rfl, fun _ => rfl⟩
      | allocError m2 t2 =>
        exact ⟨fun _ => rfl, fun _ => rfl, fun _ => rfl, fun hne => absurd h512 hne, fun _ => rfl, fun _ => rfl⟩
      | panicked =>
        exact ⟨fun _ => rfl, fun _ => rfl, fun _ => rfl, fun hne => absurd h512 hne, fun _ => rfl, fun _ => rfl⟩
    · intro r2 hr2
      rw [SlabAllocator.deallocate_class_512 r ptr size align h512] at hr2
      cases hro : r.slab_512.return_object ptr with
      | none =>
        rw [hro] at hr2
        cases hr2
      | some mm =>
        rw [hro] at hr2
        injection hr2 with h1
        rw [← h1]
        exact ⟨fun _ => rfl, fun _ => rfl, fun _ => rfl, fun hne => absurd h512 hne, fun _ => rfl, fun _ => rfl⟩
  by_cases h1024 : allocation_size size align = 1024
  · constructor
    · rw [SlabAllocator.allocate_class_1024 r b t size align h1024]
      cases hres : r.slab_1024.next_object b t with
      | ok o m2 t2 =>
        exact ⟨fun _ => rfl, fun _ => rfl, fun _ => rfl, fun _ => rfl, fun hne => absurd h1024 hne, fun _ => rfl⟩
      | allocError m2 t2 =>
        exact ⟨fun _ => rfl, fun _ => rfl, fun _ => rfl, fun _ => rfl, fun hne => absurd h1024 hne, fun _ => rfl⟩
      | panicked =>
        exact ⟨fun _ => rfl, fun _ => rfl, fun _ => rfl, fun _ => rfl, fun hne => absurd h1024 hne, fun _ => rfl⟩
    · intro r2 hr2
      rw [SlabAllocator.deallocate_class_1024 r ptr size align h1024] at hr2
      cases hro : r.slab_1024.return_object ptr with
      | none =>
        rw [hro] at hr2
        cases hr2
      | some mm =>
        rw [hro] at hr2
        injection hr2 with h1
        rw [← h1]
        exact ⟨fun _ => rfl, fun _ => rfl, fun _ => rfl, fun _ => rfl, fun hne => absurd h1024 hne, fun _ => rfl⟩
  by_cases h2048 : allocation_size size align = 2048
  · constructor
    · rw [SlabAllocator.allocate_class_2048 r b t size align h2048]
      cases hres : r.slab_2048.next_object b t with
      | ok o m2 t2 =>
        exact ⟨fun _ => rfl, fun _ => rfl, fun _ => rfl, fun _ => rfl, fun _ => rfl, fun hne => absurd h2048 hne⟩
      | allocError m2 t2 =>
        exact ⟨fun _ => rfl, fun _ => rfl, fun _ => rfl, fun _ => rfl, fun _ => rfl, fun hne => absurd h2048 hne⟩
      | panicked =>
        exact ⟨fun _ => rfl, fun _ => rfl, fun _ => rfl, fun _ => rfl, fun _ => rfl, fun hne => absurd h2048 hne⟩
    · intro r2 hr2
      rw [SlabAllocator.deallocate_class_2048 r ptr size align h2048] at hr2
      cases hro : r.slab_2048.return_object ptr with
      | none =>
        rw [hro] at hr2
        cases hr2
      | some mm =>
        rw [hro] at hr2
        injection hr2 with h1
        rw [← h1]
        exact ⟨fun _ => rfl, fun _ => rfl, fun _ => rfl, fun _ => rfl, fun _ => rfl, fun hne => absurd h2048 hne⟩
  have hns : ¬supportedClass (allocation_size size align) := by
    rw [not_supportedClass_iff]
    exact ⟨h64, h128, h256, h512, h1024, h2048⟩
  constructor
  · rw [SlabAllocator.allocate_fallback r b t size align hns]
    cases hbb : b t size align with
    | some blk =>
      exact ⟨fun _ => rfl, fun _ => rfl, fun _ => rfl, fun _ => rfl, fun _ => rfl, fun _ => rfl⟩
    | none =>
      exact ⟨fun _ => rfl, fun _ => rfl, fun _ => rfl, fun _ => rfl, fun _ => rfl, fun _ => rfl⟩
  · intro r2 hr2
    rw [SlabAllocator.deallocate_fallback r ptr size align hns] at hr2
    injection hr2 with h1
    rw [← h1]
    exact ⟨fun _ => rfl, fun _ => rfl, fun _ => rfl, fun _ => rfl, fun _ => rfl, fun _ => rfl⟩

theorem router_class_isolation_witness :
    (SlabAllocator.new_in.allocate b0 0 64 1).state.slab_128 =
      SlabAllocator.new_in.slab_128 := by
  have hcl : allocation_size 64 1 = 64 := by
    show max (next_power_of_two 64) 1 = 64
    rw [next_power_of_two_def]
    decide
  exact ((router_class_isolation SlabAllocator.new_in b0 0 64 1 0).1).2.1
    (by rw [hcl]; norm_num)
